import Mathlib

/-!
# WaylandClientLogo: a verification development for `src.d/logo.c`

The client connects to a Wayland compositor, binds three globals, allocates a
shared-memory buffer, and shows a static image.  This file embeds the program
in Lean: the C library routines used by `render_surface` (`fgets`, `sscanf`),
the renderer itself, the event handlers, `main` with its event loop, and then
states and proves properties of these definitions.

Conventions of the embedding.

* `uint32_t` arithmetic is `Nat` arithmetic followed by `% 2 ^ 32`.
* The process-wide globals of the C file are the fields of `State`.
* Everything the environment decides (what the server advertises, the result
  of each system call, the content of the pixel file, the batches of events
  each dispatch call delivers) is a field of `Env`.
* Every library call that is observable from outside is appended to a
  chronological list of `Call`s, the trace.
* Text written with `printf` is not modelled, nor is a failure of the
  Wayland library to allocate a proxy.
-/

namespace WaylandLogo

/-! ## Settings (`logo.c`, lines 40-43) -/

/-- Global `uint32_t width = 288;`. -/
def width : Nat := 288

/-- Global `uint32_t height = 288;`. -/
def height : Nat := 288

/-- Number of values of a `uint32_t`. -/
def UINT32 : Nat := 2 ^ 32

/-- Number of values of an `unsigned long` (64 bit, as on the Linux targets the
program is written for: it uses `memfd_create`). -/
def ULONG : Nat := 2 ^ 64

/-! ## The C library routines used by the renderer -/

/-- C `isspace` in the "C" locale. -/
def isspace (c : Char) : Bool :=
  c == ' ' || c == '\t' || c == '\n' || c == '\x0b' || c == '\x0c' || c == '\r'

/-- C `isdigit`. -/
def isdigit (c : Char) : Bool :=
  decide ('0'.toNat ≤ c.toNat) && decide (c.toNat ≤ '9'.toNat)

/-- The character transfer of `fgets`: with room for `n` more characters,
copy characters of the stream up to and including the first newline.
Returns the characters stored and the rest of the stream. -/
def fgets_copy : Nat → List Char → List Char × List Char
  | 0, fp => ([], fp)
  | _ + 1, [] => ([], [])
  | n + 1, c :: fp =>
    if c = '\n' then ([c], fp)
    else ((c :: (fgets_copy n fp).1), (fgets_copy n fp).2)

/-- `fgets(line, size, fp)` on a stream given by its unread characters.
At end of file with nothing read it returns `NULL` (here `none`) and leaves
the array alone; otherwise it stores at most `size - 1` characters. -/
def fgets (size : Nat) (fp : List Char) : Option (List Char) × List Char :=
  match fp with
  | [] => (none, [])
  | _ :: _ => (some (fgets_copy (size - 1) fp).1, (fgets_copy (size - 1) fp).2)

/-- A character array read as a C string: the characters before the first NUL. -/
def cstr (line : List Char) : List Char :=
  line.takeWhile (fun c => c != Char.ofNat 0)

/-- Value of a run of decimal digits. -/
def digits_value (ds : List Char) : Nat :=
  ds.foldl (fun acc c => 10 * acc + (c.toNat - '0'.toNat)) 0

/-- The number conversion behind `%hhu` once white space is skipped: an
optional sign, then one or more digits.  The value is computed as an
`unsigned long` (saturating on overflow, negated modulo `2 ^ 64` after a minus
sign, as `strtoul` does) and stored as an `unsigned char`, i.e. modulo 256.
Returns the byte and the unread rest, or `none` on a matching failure. -/
def scan_number (s : List Char) : Option (Nat × List Char) :=
  let neg : Bool := s.head? == some '-'
  let body : List Char := if s.head? = some '-' ∨ s.head? = some '+' then s.tail else s
  let ds := body.takeWhile isdigit
  if ds = [] then none
  else
    let v := digits_value ds
    let u := if ULONG ≤ v then ULONG - 1 else if neg then (ULONG - v) % ULONG else v
    some (u % 256, body.dropWhile isdigit)

/-- One `%hhu` directive: skip leading white space, then convert a number. -/
def scan_hhu (s : List Char) : Option (Nat × List Char) :=
  scan_number (s.dropWhile isspace)

/-- The conversions of the format `"%hhu:%hhu:...:%hhu"` with `n` directives
separated by a literal colon: the list of bytes converted before the first
failure (input failure, matching failure of a number or of a colon). -/
def scan_fields : Nat → List Char → List Nat
  | 0, _ => []
  | n + 1, s =>
    match scan_hhu s with
    | none => []
    | some (v, rest) =>
      if n = 0 then [v]
      else
        match rest with
        | c :: t => if c = ':' then v :: scan_fields n t else [v]
        | [] => [v]

/-! ## Memory -/

/-- What the pointer `pixle_data` designates: the mapped shared region with
its bytes, or no mapping at all (`MAP_FAILED`). -/
inductive Region where
  | mapped (bytes : List Nat)
  | unmapped
  deriving DecidableEq, Repr

/-- Whether the pointer designates a mapping. -/
def Region.isMapped : Region → Bool
  | .mapped _ => true
  | .unmapped => false

/-- How a piece of code ends. -/
inductive Outcome (α : Type) where
  /-- The code ran to its end and returned. -/
  | returned (a : α)
  /-- The code called `exit(status)`. -/
  | exited (status : Nat)
  /-- The code made an invalid memory access (null stream, unmapped page). -/
  | fault
  deriving DecidableEq, Repr

/-- Store one byte at `data + off`.  A store through `MAP_FAILED` faults. -/
def Region.store (data : Region) (off : Nat) (v : Nat) : Outcome Region :=
  match data with
  | .mapped bytes => .returned (.mapped (bytes.set off v))
  | .unmapped => .fault

/-- Store the converted bytes `vs` through the successive destination
pointers `data + offs[0]`, `data + offs[1]`, ... -/
def store_fields (data : Region) : List Nat → List Nat → Outcome Region
  | v :: vs, off :: offs =>
    match data.store off v with
    | .returned data1 => store_fields data1 vs offs
    | .exited n => .exited n
    | .fault => .fault
  | _, _ => .returned data

/-- The call `sscanf(line, "%hhu:%hhu:%hhu:%hhu\n", data+4*k+2, data+4*k+1,
data+4*k+0, data+4*k+3)` of `render_surface`.  The trailing `\n` of the format
matches any amount of white space and can not fail; every conversion that
succeeds is stored at once, so a line that fails half way still writes the
leading fields. -/
def sscanf_pixel (line : List Char) (data : Region) (k : Nat) : Outcome Region :=
  store_fields data (scan_fields 4 (cstr line)) [4 * k + 2, 4 * k + 1, 4 * k + 0, 4 * k + 3]

/-! ## The renderer (`logo.c`, lines 238-252) -/

/-- The `for` loop of `render_surface` with `n` iterations left, at pixel
index `k`; `line` is the current content of the array `line[100]` and `fp` the
unread part of the file.  The results of `fgets` and `sscanf` are discarded
as in the source: when `fgets` returns `NULL` the array keeps its previous
content and is parsed again. -/
def render_loop : Nat → Nat → List Char → List Char → Region → Outcome Region
  | 0, _, _, _, data => .returned data
  | n + 1, k, line, fp, data =>
    let line1 := match (fgets 100 fp).1 with
      | some l => l
      | none => line
    match sscanf_pixel line1 data k with
    | .returned data1 => render_loop n (k + 1) line1 (fgets 100 fp).2 data1
    | .exited c => .exited c
    | .fault => .fault

/-- `render_surface(data)`.  `file` is the result of
`fopen("./img.d/logo.dat", "r")`: the content of the file, or `none` when it
can not be opened, in which case `fgets` is handed a null stream.  `stack` is
the indeterminate initial content of the local array `line`.  The loop bound
`height*width` is a `uint32_t` product. -/
def render_surface (file : Option (List Char)) (stack : List Char) (data : Region) :
    Outcome Region :=
  match file with
  | none => .fault
  | some fp => render_loop ((height * width) % UINT32) 0 stack fp data

/-! ## The pixel source as the specification describes it -/

/-- One record of the pixel source: four channel values. -/
structure Pixel where
  r : Nat
  g : Nat
  b : Nat
  a : Nat
  deriving DecidableEq, Repr

/-- Every channel is an unsigned 8-bit value. -/
def Pixel.wf (p : Pixel) : Prop :=
  p.r < 256 ∧ p.g < 256 ∧ p.b < 256 ∧ p.a < 256

instance (p : Pixel) : Decidable p.wf := by
  unfold Pixel.wf; infer_instance

/-- The text of one record, `R:G:B:A` and a newline, every value written as
a decimal integer. -/
def Pixel.text (p : Pixel) : List Char :=
  Nat.toDigits 10 p.r ++ ':' :: (Nat.toDigits 10 p.g ++ ':' ::
    (Nat.toDigits 10 p.b ++ ':' :: (Nat.toDigits 10 p.a ++ ['\n'])))

/-- The text of a pixel source made of the given records, one per line. -/
def source_text : List Pixel → List Char
  | [] => []
  | p :: ps => p.text ++ source_text ps

/-- The four bytes a record occupies in an ARGB8888 buffer: blue, green, red,
alpha. -/
def Pixel.bytes (p : Pixel) : List Nat := [p.b, p.g, p.r, p.a]

/-- The buffer content that holds the given records in order. -/
def buffer_bytes : List Pixel → List Nat
  | [] => []
  | p :: ps => p.bytes ++ buffer_bytes ps

/-- The characters of a record before its newline. -/
def Pixel.body (p : Pixel) : List Char :=
  Nat.toDigits 10 p.r ++ ':' :: (Nat.toDigits 10 p.g ++ ':' ::
    (Nat.toDigits 10 p.b ++ ':' :: Nat.toDigits 10 p.a))

/-- The content of the array `line` after the records `ps` have been read. -/
def line_after (line : List Char) : List Pixel → List Char
  | [] => line
  | p :: ps => line_after p.text ps

/-! ## Protocol objects, events and the call trace -/

/-- Global `char *wayland_display = "wayland-1";`. -/
def wayland_display : String := "wayland-1"

/-- Enumerator `WL_SHM_FORMAT_ARGB8888` of `wayland-client-protocol.h`. -/
def WL_SHM_FORMAT_ARGB8888 : Nat := 0

/-- Conversion of an unsigned value to the `int32_t` parameter of a protocol
request (two's complement). -/
def toInt32 (n : Nat) : Int :=
  if n % UINT32 < 2 ^ 31 then (n % UINT32 : Nat) else (n % UINT32 : Nat) - (UINT32 : Int)

/-- A proxy returned by `wl_registry_bind`: the global it is bound to, the
interface and the version asked for.  A null pointer is `none` where proxies
are stored. -/
structure Proxy where
  name : Nat
  interface : String
  version : Nat
  deriving DecidableEq, Repr

/-- The `wl_buffer` made by `wl_shm_pool_create_buffer`, identified by the
arguments of its creation. -/
structure WlBuffer where
  offset : Int
  width : Int
  height : Int
  stride : Int
  format : Nat
  deriving DecidableEq, Repr

/-- The calls the client makes that are observable from outside: the
requests and library calls of `wayland-client`, and the calls of the
renderer.  The proxy a request is sent on is not recorded where the program
has a single object of that kind (one surface, one xdg surface, one pool).
The request functions of `xdg-shell-protocol-client.h` are recorded by the
request each of them sends. -/
inductive Call where
  | display_connect (name : String)
  | display_get_registry
  | display_roundtrip
  | registry_bind (name : Nat) (interface : String) (version : Nat)
  | compositor_create_surface
  | shm_create_pool (fd : Int) (size : Int)
  | shm_pool_create_buffer (offset width height stride : Int) (format : Nat)
  | get_xdg_surface
  | get_toplevel
  | set_title (title : String)
  /-- Call of `render_surface(pixle_data)`; `mapped` tells whether the pointer
  designates a mapping at the time of the call. -/
  | render_surface (mapped : Bool)
  | surface_attach (buffer : Option WlBuffer) (x y : Int)
  | surface_damage_buffer (x y w h : Int)
  | ack_configure (serial : Nat)
  | surface_commit
  | display_dispatch
  | registry_destroy
  | display_disconnect
  deriving DecidableEq, Repr

/-- Events of the `wl_registry` listener. -/
inductive RegistryEvent where
  | global (name : Nat) (interface : String) (version : Nat)
  | global_remove (name : Nat)
  deriving DecidableEq, Repr

/-- Events the server can send once the window objects exist.  `unlistened`
stands for any event on an object that has no listener (`wl_shm.format`,
`xdg_wm_base.ping`, `wl_buffer.release`, ...), which the library drops. -/
inductive Event where
  | registry (e : RegistryEvent)
  | xsurface_configure (serial : Nat)
  | xtoplevel_configure (w h : Int) (states : List Nat)
  | xtoplevel_configure_bounds (w h : Int)
  | xtoplevel_close
  | unlistened
  deriving DecidableEq, Repr

/-- What one call of `wl_display_dispatch` does: the events it hands to the
listeners, in order, and its return value (`-1` on failure). -/
structure Batch where
  events : List Event
  ret : Int
  deriving DecidableEq, Repr

/-- Everything the environment decides during one run. -/
structure Env where
  /-- `wl_display_connect` returned a display. -/
  connect : Bool
  /-- The registry events delivered during `wl_display_roundtrip`. -/
  globals : List RegistryEvent
  /-- Return value of `syscall(SYS_memfd_create, "buffer", 0)`. -/
  memfd : Int
  /-- Return value of `ftruncate(fd, size)`. -/
  ftruncate : Int
  /-- Result of `mmap`: the mapping with its initial bytes, or `MAP_FAILED`. -/
  mmap : Region
  /-- Result of `fopen("./img.d/logo.dat", "r")` at the `n`-th call of the
  renderer (counted from 0). -/
  fopen : Nat → Option (List Char)
  /-- Initial content of the local array `line` at the `n`-th call. -/
  stack : Nat → List Char
  /-- The successive calls of `wl_display_dispatch` in the event loop. -/
  dispatch : List Batch

/-- The file-scope variables of `logo.c` (lines 46-57) that the program reads
back, the trace of calls made so far, and the number of renderer calls made
so far.  `pixle_data` starts as a null pointer, which designates no mapping. -/
structure State where
  compositor : Option Proxy
  shm : Option Proxy
  shell : Option Proxy
  buffer : Option WlBuffer
  pixle_data : Region
  quit : Bool
  trace : List Call
  renders : Nat
  deriving DecidableEq, Repr

/-- Where the process stands. -/
inductive Status where
  /-- Executing; the code that follows runs. -/
  | running
  /-- Terminated by `exit(code)` or by `return code` from `main`. -/
  | exited (code : Nat)
  /-- Terminated by an invalid memory access. -/
  | crashed
  /-- Waiting inside `wl_display_dispatch` for events not yet sent. -/
  | blocked
  deriving DecidableEq, Repr

/-- Record a call in the trace. -/
def emit (c : Call) (st : State) : State :=
  { st with trace := st.trace ++ [c] }

/-! ## Event handlers (`logo.c`, lines 165-235) -/

/-- Handler `registry_global`: binds the three globals the client needs, each
with a fixed version, and stores the proxy.  `strcmp` on the interface name
is equality of strings; `wl_registry_bind` is taken to return a proxy (the
library returns a null pointer only when it runs out of memory). -/
def registry_global (name : Nat) (interface : String) (version : Nat) (st : State) : State :=
  let _ := version
  if interface = "wl_compositor" then
    { emit (.registry_bind name "wl_compositor" 4) st with
      compositor := some ⟨name, "wl_compositor", 4⟩ }
  else if interface = "wl_shm" then
    { emit (.registry_bind name "wl_shm" 1) st with
      shm := some ⟨name, "wl_shm", 1⟩ }
  else if interface = "xdg_wm_base" then
    { emit (.registry_bind name "xdg_wm_base" 1) st with
      shell := some ⟨name, "xdg_wm_base", 1⟩ }
  else st

/-- Handler `registry_global_remove`: does nothing. -/
def registry_global_remove (name : Nat) (st : State) : State :=
  let _ := name
  st

/-- The registry listener table (`logo.c`, lines 60-65): which handler a
registry event runs. -/
def registry_listener (e : RegistryEvent) (st : State) : State :=
  match e with
  | .global name interface version => registry_global name interface version st
  | .global_remove name => registry_global_remove name st

/-- The statement `render_surface(pixle_data);` in its context: the call is
recorded, the file and the stack content come from the environment, and the
bytes written stay in the mapping. -/
def call_render (env : Env) (st : State) : State × Status :=
  let st1 := { emit (.render_surface st.pixle_data.isMapped) st with renders := st.renders + 1 }
  match render_surface (env.fopen st.renders) (env.stack st.renders) st.pixle_data with
  | .returned data => ({ st1 with pixle_data := data }, .running)
  | .exited code => (st1, .exited code)
  | .fault => (st1, .crashed)

/-- Handler `xsurface_configure`. -/
def xsurface_configure (env : Env) (serial : Nat) (st : State) : State × Status :=
  let st := emit (.surface_attach st.buffer 0 0) st
  let st := emit (.surface_damage_buffer 0 0 (toInt32 width) (toInt32 height)) st
  let st := emit (.ack_configure serial) st
  match call_render env st with
  | (st, .running) => (emit .surface_commit st, .running)
  | halted => halted

/-- Handler `xtoplevel_configure`: does nothing. -/
def xtoplevel_configure (w h : Int) (states : List Nat) (st : State) : State :=
  let _ := (w, h, states)
  st

/-- Handler `xtoplevel_close`. -/
def xtoplevel_close (st : State) : State :=
  { st with quit := true }

/-- Handler `xtoplevel_configure_bounds`: does nothing. -/
def xtoplevel_configure_bounds (w h : Int) (st : State) : State :=
  let _ := (w, h)
  st

/-- The listener tables (`logo.c`, lines 60-73): which handler an event runs. -/
def handle (env : Env) (e : Event) (st : State) : State × Status :=
  match e with
  | .registry r => (registry_listener r st, .running)
  | .xsurface_configure serial => xsurface_configure env serial st
  | .xtoplevel_configure w h states => (xtoplevel_configure w h states st, .running)
  | .xtoplevel_configure_bounds w h => (xtoplevel_configure_bounds w h st, .running)
  | .xtoplevel_close => (xtoplevel_close st, .running)
  | .unlistened => (st, .running)

/-- The library hands the events of a batch to the handlers one after the
other; each handler runs to its end before the next event. -/
def deliver (env : Env) : List Event → State → State × Status
  | [], st => (st, .running)
  | e :: es, st =>
    match handle env e st with
    | (st1, .running) => deliver env es st1
    | halted => halted

/-- One call `wl_display_dispatch(display);`: the return value is not used. -/
def display_dispatch (env : Env) (b : Batch) (st : State) : State × Status :=
  let _ := b.ret
  deliver env b.events (emit .display_dispatch st)

/-- The call `wl_display_roundtrip(display);` of startup: the registry events
are handed to the registry listener; the return value is not used. -/
def display_roundtrip (env : Env) (st : State) : State :=
  env.globals.foldl (fun st e => registry_listener e st) (emit .display_roundtrip st)

/-! ## `main` (`logo.c`, lines 76-163) -/

/-- Local `uint64_t size = 4*width*height;` (the product is computed in
`uint32_t`). -/
def size : Nat := ((4 * width) % UINT32 * height) % UINT32

/-- Local `uint64_t stride = 4*width;`. -/
def stride : Nat := (4 * width) % UINT32

/-- The state when `main` is entered: zero-initialised statics. -/
def State.init : State :=
  { compositor := none, shm := none, shell := none, buffer := none,
    pixle_data := .unmapped, quit := false, trace := [], renders := 0 }

/-- The event loop `while (true) { if (quit) break; wl_display_dispatch(display); }`
run against the batches the server sends.  When the batches are used up and
`quit` is still false the process is blocked in the next dispatch call. -/
def event_loop (env : Env) : List Batch → State → State × Status
  | [], st =>
    if st.quit then (st, .running) else (emit .display_dispatch st, .blocked)
  | b :: bs, st =>
    if st.quit then (st, .running)
    else
      match display_dispatch env b st with
      | (st1, .running) => event_loop env bs st1
      | halted => halted

/-- The part of `main` before the event loop (lines 80-150). -/
def startup (env : Env) : State × Status :=
  let st := { State.init with quit := false }
  let st := emit (.display_connect wayland_display) st
  if !env.connect then (st, .exited 1)
  else
    let st := emit .display_get_registry st
    let st := display_roundtrip env st
    if st.compositor.isNone || st.shm.isNone || st.shell.isNone then (st, .exited 1)
    else
      let st := emit .compositor_create_surface st
      if env.memfd < 0 then (st, .exited 1)
      else if env.ftruncate < 0 then (st, .exited 1)
      else
        let st := emit (.shm_create_pool env.memfd (toInt32 size)) st
        let st := { st with pixle_data := env.mmap }
        let st := { emit (.shm_pool_create_buffer 0 (toInt32 width) (toInt32 height)
                      (toInt32 stride) WL_SHM_FORMAT_ARGB8888) st with
                    buffer := some ⟨0, toInt32 width, toInt32 height, toInt32 stride,
                      WL_SHM_FORMAT_ARGB8888⟩ }
        let st := emit .get_xdg_surface st
        let st := emit .get_toplevel st
        let st := emit (.set_title "Wayland Logo") st
        match call_render env st with
        | (st, .running) => (emit .surface_commit st, .running)
        | halted => halted

/-- The whole of `main`: startup, the event loop, clean up and `return 0`. -/
def main (env : Env) : State × Status :=
  match startup env with
  | (st, .running) =>
    match event_loop env env.dispatch st with
    | (st, .running) => (emit .display_disconnect (emit .registry_destroy st), .exited 0)
    | halted => halted
  | halted => halted

/-! ## Vocabulary for statements about traces -/

/-- The bytes of the mapping after a call of the renderer that returns. -/
def rendered (fp : List Char) (stack : List Char) (bytes : List Nat) : List Nat :=
  match render_surface (some fp) stack (.mapped bytes) with
  | .returned (.mapped out) => out
  | _ => bytes

/-- The calls `registry_global` makes for a global of the given interface. -/
def bind_calls (name : Nat) (interface : String) : List Call :=
  if interface = "wl_compositor" then [.registry_bind name "wl_compositor" 4]
  else if interface = "wl_shm" then [.registry_bind name "wl_shm" 1]
  else if interface = "xdg_wm_base" then [.registry_bind name "xdg_wm_base" 1]
  else []

/-- The calls made by the registry listener for one event. -/
def registry_calls : RegistryEvent → List Call
  | .global name interface _ => bind_calls name interface
  | .global_remove _ => []

/-- The calls of `xsurface_configure` up to and including the call of the
renderer. -/
def configure_calls (buffer : Option WlBuffer) (mapped : Bool) (serial : Nat) : List Call :=
  [.surface_attach buffer 0 0,
   .surface_damage_buffer 0 0 (toInt32 width) (toInt32 height),
   .ack_configure serial,
   .render_surface mapped]

/-- The calls made by the handler of one event when it runs to its end. -/
def event_calls (buffer : Option WlBuffer) (mapped : Bool) : Event → List Call
  | .registry e => registry_calls e
  | .xsurface_configure serial => configure_calls buffer mapped serial ++ [.surface_commit]
  | _ => []

/-- The calls of a list of events whose handlers all run to their end. -/
def events_calls (buffer : Option WlBuffer) (mapped : Bool) : List Event → List Call
  | [] => []
  | e :: es => event_calls buffer mapped e ++ events_calls buffer mapped es

/-- The calls of one dispatch whose handlers all run to their end. -/
def batch_calls (buffer : Option WlBuffer) (mapped : Bool) (b : Batch) : List Call :=
  .display_dispatch :: events_calls buffer mapped b.events

/-- The calls of a list of dispatches whose handlers all run to their end. -/
def batches_calls (buffer : Option WlBuffer) (mapped : Bool) : List Batch → List Call
  | [] => []
  | b :: bs => batch_calls buffer mapped b ++ batches_calls buffer mapped bs

/-- The calls of the registry listener for a list of registry events. -/
def globals_calls : List RegistryEvent → List Call
  | [] => []
  | e :: es => registry_calls e ++ globals_calls es

/-- The event announces a global of the given interface. -/
def RegistryEvent.announces (interface : String) : RegistryEvent → Bool
  | .global _ i _ => i == interface
  | .global_remove _ => false

/-- The interface occurs among the globals announced by the events. -/
def advertised (interface : String) (es : List RegistryEvent) : Prop :=
  es.any (RegistryEvent.announces interface) = true

instance (interface : String) (es : List RegistryEvent) :
    Decidable (advertised interface es) := by
  unfold advertised; infer_instance

/-- The single buffer `main` creates. -/
def the_buffer : WlBuffer :=
  ⟨0, toInt32 width, toInt32 height, toInt32 stride, WL_SHM_FORMAT_ARGB8888⟩

/-- The calls of `main` up to the check of the globals. -/
def connect_calls (env : Env) : List Call :=
  [.display_connect wayland_display, .display_get_registry, .display_roundtrip] ++
    globals_calls env.globals

/-- The calls of `main` between the check of the globals and the first call
of the renderer, when no system call fails. -/
def setup_calls (env : Env) : List Call :=
  [.compositor_create_surface,
   .shm_create_pool env.memfd (toInt32 size),
   .shm_pool_create_buffer 0 (toInt32 width) (toInt32 height) (toInt32 stride)
     WL_SHM_FORMAT_ARGB8888,
   .get_xdg_surface, .get_toplevel, .set_title "Wayland Logo"]

/-- The serials of the surface-configure events of a list of events. -/
def configure_serials : List Event → List Nat
  | [] => []
  | .xsurface_configure serial :: es => serial :: configure_serials es
  | _ :: es => configure_serials es

/-- The serials of the `ack_configure` requests of a trace, in order. -/
def acked_serials : List Call → List Nat
  | [] => []
  | .ack_configure serial :: t => serial :: acked_serials t
  | _ :: t => acked_serials t

/-- The event is a toplevel-close event. -/
def Event.isClose : Event → Bool
  | .xtoplevel_close => true
  | _ => false

/-- The call is a `wl_surface_attach` request. -/
def Call.isAttach : Call → Bool
  | .surface_attach _ _ _ => true
  | _ => false

/-- The call is an `xdg_surface_ack_configure` request. -/
def Call.isAck : Call → Bool
  | .ack_configure _ => true
  | _ => false

/-- All three interfaces the client needs are announced. -/
def globals_complete (es : List RegistryEvent) : Prop :=
  advertised "wl_compositor" es ∧ advertised "wl_shm" es ∧ advertised "xdg_wm_base" es

instance (es : List RegistryEvent) : Decidable (globals_complete es) := by
  unfold globals_complete; infer_instance

/-- The state of `main` after the round trip of startup. -/
def after_roundtrip (env : Env) : State :=
  display_roundtrip env
    (emit .display_get_registry
      (emit (.display_connect wayland_display) { State.init with quit := false }))

/-- The state of `main` right before the first call of the renderer, when the
globals are there and no checked system call failed. -/
def before_render (env : Env) : State :=
  emit (.set_title "Wayland Logo")
    (emit .get_toplevel
      (emit .get_xdg_surface
        { emit (.shm_pool_create_buffer 0 (toInt32 width) (toInt32 height) (toInt32 stride)
              WL_SHM_FORMAT_ARGB8888)
            { emit (.shm_create_pool env.memfd (toInt32 size))
                (emit .compositor_create_surface (after_roundtrip env)) with
              pixle_data := env.mmap } with
          buffer := some the_buffer }))

/-- Some call of the renderer faults in this environment, for a pointer that
is (`mapped = true`) or is not (`mapped = false`) a mapping. -/
def render_faults (env : Env) (mapped : Bool) : Prop :=
  ∃ n data, Region.isMapped data = mapped ∧
    render_surface (env.fopen n) (env.stack n) data = .fault

/-- An environment in which `mmap` succeeds and the pixel file can be opened
at every call of the renderer. -/
def Env.sound (env : Env) : Prop :=
  env.mmap.isMapped = true ∧ ∀ n, (env.fopen n).isSome = true

/-- The status of the event loop on batches whose handlers all run to their
end: `running` when the loop is left through `quit`. -/
def loop_status : List Batch → Status
  | [] => .blocked
  | b :: bs => if b.events.any Event.isClose then .running else loop_status bs

/-- The calls of the event loop on batches whose handlers all run to their
end. -/
def loop_calls (buffer : Option WlBuffer) (mapped : Bool) : List Batch → List Call
  | [] => [.display_dispatch]
  | b :: bs =>
    batch_calls buffer mapped b ++
      (if b.events.any Event.isClose then [] else loop_calls buffer mapped bs)

/-- The status of `main` on batches whose handlers all run to their end. -/
def main_status (bs : List Batch) : Status :=
  match loop_status bs with
  | .running => .exited 0
  | s => s

/-- The calls of the clean up at the end of `main`, made when the event loop
is left. -/
def cleanup_calls (bs : List Batch) : List Call :=
  match loop_status bs with
  | .running => [.registry_destroy, .display_disconnect]
  | _ => []

/-- All events of a list of batches, in the order of their delivery. -/
def batches_events : List Batch → List Event
  | [] => []
  | b :: bs => b.events ++ batches_events bs

/-- The call is a `wl_surface_damage_buffer` request. -/
def Call.isDamage : Call → Bool
  | .surface_damage_buffer _ _ _ _ => true
  | _ => false

/-- The call is a `wl_shm_pool_create_buffer` request. -/
def Call.isCreateBuffer : Call → Bool
  | .shm_pool_create_buffer _ _ _ _ _ => true
  | _ => false

/-- The call is a call of the renderer. -/
def Call.isRender : Call → Bool
  | .render_surface _ => true
  | _ => false

/-- The requests that create or show the window: `create_surface`,
`create_pool`, `create_buffer`, `get_xdg_surface`, `get_toplevel`, `attach`
and `commit`. -/
def Call.isWindowRequest : Call → Bool
  | .compositor_create_surface => true
  | .shm_create_pool _ _ => true
  | .shm_pool_create_buffer _ _ _ _ _ => true
  | .get_xdg_surface => true
  | .get_toplevel => true
  | .surface_attach _ _ _ => true
  | .surface_commit => true
  | _ => false

/-- The call is none of attach, ack_configure and commit. -/
def Call.isQuiet (c : Call) : Bool :=
  !c.isAttach && !c.isAck && !(c == .surface_commit)

/-- The shape of the calls made from the event loop on: calls that are none
of attach, ack_configure and commit; the five calls of a surface-configure
handler that runs to its end; and, only at the very end, the four calls of a
handler whose renderer call faults. -/
inductive LoopShape : List Call → Prop where
  | done : LoopShape []
  | call (c : Call) (t : List Call) : c.isQuiet = true → LoopShape t → LoopShape (c :: t)
  | configure (buffer : Option WlBuffer) (mapped : Bool) (serial : Nat) (t : List Call) :
      LoopShape t → LoopShape (configure_calls buffer mapped serial ++ .surface_commit :: t)
  | fault (buffer : Option WlBuffer) (mapped : Bool) (serial : Nat) :
      LoopShape (configure_calls buffer mapped serial)

/-- The call is a `wl_registry_bind` request. -/
def Call.isBind : Call → Bool
  | .registry_bind _ _ _ => true
  | _ => false

/-! ## Concrete inputs used by the examples -/

/-- An opaque white pixel. -/
def white : Pixel := ⟨255, 255, 255, 255⟩

/-- The record `1:2:3:4`. -/
def px1234 : Pixel := ⟨1, 2, 3, 4⟩

/-- The record `9:8:7:6`. -/
def px9876 : Pixel := ⟨9, 8, 7, 6⟩

/-- A pixel file of exactly `width * height` records. -/
def full_source : List Pixel := List.replicate (width * height) px1234

/-- A fresh mapping of `4 * width * height` zero bytes. -/
def zero_buffer : List Nat := List.replicate (4 * width * height) 0

/-- An environment in which the three globals are announced (next to a
fourth one), every system call succeeds, the pixel file is complete, and the
server delivers the given batches. -/
def env_ok (batches : List Batch) : Env :=
  { connect := true,
    globals := [.global 1 "wl_compositor" 5, .global 2 "wl_shm" 1,
      .global 3 "xdg_wm_base" 3, .global 4 "wl_seat" 8],
    memfd := 3,
    ftruncate := 0,
    mmap := .mapped zero_buffer,
    fopen := fun _ => some (source_text (List.replicate (width * height) white)),
    stack := fun _ => [],
    dispatch := batches }

/-- Two dispatches that deliver three surface-configure events, an event
without listener and, in the last batch, a close event. -/
def three_configures : List Batch :=
  [⟨[.xsurface_configure 7, .unlistened], 2⟩,
   ⟨[.xsurface_configure 8, .xtoplevel_close, .xsurface_configure 9], 3⟩]

/-- An environment in which the server announces no `wl_shm` global. -/
def env_no_shm : Env :=
  { env_ok [⟨[.xsurface_configure 1], 1⟩] with
    globals := [.global 1 "wl_compositor" 5, .global 3 "xdg_wm_base" 3,
      .global 4 "wl_seat" 8] }

/-- One dispatch that delivers a close event followed by a surface-configure
event. -/
def close_then_configure : List Batch :=
  [⟨[.xtoplevel_close, .xsurface_configure 7], 2⟩]

/-- Three dispatches; the second holds a close event between two
surface-configure events. -/
def close_in_second : List Batch :=
  [⟨[.xsurface_configure 1], 1⟩,
   ⟨[.xsurface_configure 2, .xtoplevel_close, .xsurface_configure 3, .unlistened], 4⟩,
   ⟨[.xsurface_configure 4], 1⟩]

/-- Two dispatches that both fail: no event, return value `-1`. -/
def failing_dispatches : List Batch :=
  [⟨[], -1⟩, ⟨[], -1⟩]

/-- A dispatch that delivers a surface-configure event, a dispatch that fails,
and a dispatch that delivers a close event. -/
def failure_then_close : List Batch :=
  [⟨[.xsurface_configure 1], 1⟩, ⟨[], -1⟩, ⟨[.xtoplevel_close], 1⟩]

/-- An environment in which `memfd_create` and `ftruncate` succeed and `mmap`
fails. -/
def env_mmap_fails : Env :=
  { env_ok [⟨[.xsurface_configure 1], 1⟩] with mmap := .unmapped }

/-- Registry events that announce a compositor, an output and, twice, a
shared-memory global, and remove a global. -/
def some_globals : List RegistryEvent :=
  [.global 1 "wl_compositor" 5, .global 9 "wl_output" 2, .global 2 "wl_shm" 1,
   .global_remove 9, .global 12 "wl_shm" 1]

/-- One dispatch that delivers one surface-configure event of serial 7. -/
def one_configure : List Batch :=
  [⟨[.xsurface_configure 7], 1⟩]

/-! ## Lemmas on the library routines -/

theorem isdigit_bounds {c : Char} (h : isdigit c = true) : 48 ≤ c.toNat ∧ c.toNat ≤ 57 := by
  simpa [isdigit] using h

theorem isdigit_not_special {c : Char} (h : isdigit c = true) :
    c ≠ '\n' ∧ c ≠ ':' ∧ c ≠ Char.ofNat 0 ∧ c ≠ '-' ∧ c ≠ '+' ∧ isspace c = false := by
  have hb := isdigit_bounds h
  refine ⟨?_, ?_, ?_, ?_, ?_, ?_⟩
  · rintro rfl; revert hb; decide
  · rintro rfl; revert hb; decide
  · rintro rfl; revert hb; decide
  · rintro rfl; revert hb; decide
  · rintro rfl; revert hb; decide
  · cases hs : isspace c with
    | false => rfl
    | true =>
      exfalso
      simp only [isspace, Bool.or_eq_true, beq_iff_eq] at hs
      rcases hs with ((((rfl | rfl) | rfl) | rfl) | rfl) | rfl <;> revert hb <;> decide

set_option maxRecDepth 1000000 in
theorem toDigits_small : ∀ n, n < 256 →
    Nat.toDigits 10 n ≠ [] ∧ (Nat.toDigits 10 n).length ≤ 3 ∧
    (∀ c ∈ Nat.toDigits 10 n, isdigit c = true) ∧
    digits_value (Nat.toDigits 10 n) = n := by
  decide

/-- A nonempty run of digits of value below 256, followed by a character that
is not a digit, converts to that value and leaves the follower unread. -/
theorem scan_hhu_digits (d : List Char) (c : Char) (t : List Char)
    (hne : d ≠ []) (hd : ∀ x ∈ d, isdigit x = true) (hv : digits_value d < 256)
    (hc : isdigit c = false) :
    scan_hhu (d ++ c :: t) = some (digits_value d, c :: t) := by
  obtain ⟨x, d1, rfl⟩ := List.exists_cons_of_ne_nil hne
  have hx := isdigit_not_special (hd x (List.mem_cons_self _ _))
  have htake : List.takeWhile isdigit (x :: d1 ++ c :: t) = x :: d1 := by
    rw [List.takeWhile_append_of_pos hd]
    simp [hc]
  have hdrop : List.dropWhile isdigit (x :: d1 ++ c :: t) = c :: t := by
    rw [List.dropWhile_append_of_pos hd]
    simp [hc]
  have hlt : ¬ ULONG ≤ digits_value (x :: d1) := by
    simp only [ULONG]; omega
  have hsp : List.dropWhile isspace (x :: d1 ++ c :: t) = x :: d1 ++ c :: t := by
    simp [hx.2.2.2.2.2]
  unfold scan_hhu scan_number
  rw [hsp]
  have hhead : (x :: d1 ++ c :: t).head? = some x := rfl
  simp only [hhead, Option.some.injEq, hx.2.2.2.1, hx.2.2.2.2.1, or_self, if_false, htake,
    hdrop, hlt, beq_iff_eq, reduceCtorEq]
  simp
  omega

theorem fgets_copy_line (l : List Char) (rest : List Char) (hl : ∀ c ∈ l, c ≠ '\n') :
    ∀ n, l.length < n → fgets_copy n (l ++ '\n' :: rest) = (l ++ ['\n'], rest) := by
  induction l with
  | nil =>
    intro n hn
    cases n with
    | zero => simp at hn
    | succ n => simp [fgets_copy]
  | cons x l ih =>
    intro n hn
    cases n with
    | zero => simp at hn
    | succ n =>
      have hx : x ≠ '\n' := hl x (List.mem_cons_self _ _)
      have hl1 : ∀ c ∈ l, c ≠ '\n' := fun c hc => hl c (List.mem_cons_of_mem _ hc)
      have hlen : l.length < n := by simpa using hn
      simp [fgets_copy, hx, ih hl1 n hlen]

theorem Pixel.text_eq (p : Pixel) : p.text = p.body ++ ['\n'] := by
  simp [Pixel.text, Pixel.body]

theorem Pixel.body_spec (p : Pixel) (hp : p.wf) :
    p.body.length < 99 ∧ (∀ c ∈ p.body, c ≠ '\n') ∧ (∀ c ∈ p.body, c ≠ Char.ofNat 0) := by
  obtain ⟨hr, hg, hb, ha⟩ := hp
  obtain ⟨-, lr, dr, -⟩ := toDigits_small p.r hr
  obtain ⟨-, lg, dg, -⟩ := toDigits_small p.g hg
  obtain ⟨-, lb, db, -⟩ := toDigits_small p.b hb
  obtain ⟨-, la, da, -⟩ := toDigits_small p.a ha
  refine ⟨?_, ?_, ?_⟩
  · simp only [Pixel.body, List.length_append, List.length_cons]; omega
  · intro c hc
    simp only [Pixel.body, List.mem_append, List.mem_cons] at hc
    rcases hc with h | rfl | h | rfl | h | rfl | h
    · exact (isdigit_not_special (dr c h)).1
    · decide
    · exact (isdigit_not_special (dg c h)).1
    · decide
    · exact (isdigit_not_special (db c h)).1
    · decide
    · exact (isdigit_not_special (da c h)).1
  · intro c hc
    simp only [Pixel.body, List.mem_append, List.mem_cons] at hc
    rcases hc with h | rfl | h | rfl | h | rfl | h
    · exact (isdigit_not_special (dr c h)).2.2.1
    · decide
    · exact (isdigit_not_special (dg c h)).2.2.1
    · decide
    · exact (isdigit_not_special (db c h)).2.2.1
    · decide
    · exact (isdigit_not_special (da c h)).2.2.1

theorem fgets_of_ne_nil (size : Nat) (fp : List Char) (h : fp ≠ []) :
    fgets size fp = (some (fgets_copy (size - 1) fp).1, (fgets_copy (size - 1) fp).2) := by
  cases fp with
  | nil => exact absurd rfl h
  | cons x xs => rfl

/-- Reading a line with `fgets` from a stream that starts with a well-formed
record yields exactly that record and leaves the rest of the stream. -/
theorem fgets_record (p : Pixel) (hp : p.wf) (rest : List Char) :
    fgets 100 (p.text ++ rest) = (some p.text, rest) := by
  obtain ⟨hlen, hnl, -⟩ := p.body_spec hp
  have h := fgets_copy_line p.body rest hnl 99 hlen
  have hshape : p.text ++ rest = p.body ++ '\n' :: rest := by
    simp [Pixel.text_eq]
  rw [hshape, fgets_of_ne_nil _ _ (by simp), h, Pixel.text_eq]

theorem cstr_record (p : Pixel) (hp : p.wf) : cstr p.text = p.text := by
  obtain ⟨-, -, hnul⟩ := p.body_spec hp
  unfold cstr
  rw [List.takeWhile_eq_self_iff]
  intro c hc
  rw [Pixel.text_eq] at hc
  simp only [List.mem_append, List.mem_singleton] at hc
  rcases hc with h | rfl
  · simpa using hnul c h
  · decide

/-- Parsing a well-formed record with the format of `render_surface` converts
all four fields, in the order red, green, blue, alpha. -/
theorem scan_fields_record (p : Pixel) (hp : p.wf) :
    scan_fields 4 p.text = [p.r, p.g, p.b, p.a] := by
  obtain ⟨hr, hg, hb, ha⟩ := hp
  obtain ⟨nr, -, dr, vr⟩ := toDigits_small p.r hr
  obtain ⟨ng, -, dg, vg⟩ := toDigits_small p.g hg
  obtain ⟨nb, -, db, vb⟩ := toDigits_small p.b hb
  obtain ⟨na, -, da, va⟩ := toDigits_small p.a ha
  have hcolon : isdigit ':' = false := by decide
  have hnl : isdigit '\n' = false := by decide
  have h1 := fun t => scan_hhu_digits _ ':' t nr dr (by omega) hcolon
  have h2 := fun t => scan_hhu_digits _ ':' t ng dg (by omega) hcolon
  have h3 := fun t => scan_hhu_digits _ ':' t nb db (by omega) hcolon
  have h4 := fun t => scan_hhu_digits _ '\n' t na da (by omega) hnl
  simp only [Pixel.text, scan_fields, h1, h2, h3, h4, vr, vg, vb, va]
  simp

/-- The `sscanf` call of the renderer on a well-formed record overwrites the
four bytes of pixel `k` with blue, green, red, alpha. -/
theorem sscanf_record (p : Pixel) (hp : p.wf) (k : Nat) (pre post : List Nat)
    (x0 x1 x2 x3 : Nat) (hpre : pre.length = 4 * k) :
    sscanf_pixel p.text (.mapped (pre ++ x0 :: x1 :: x2 :: x3 :: post)) k =
      .returned (.mapped (pre ++ p.bytes ++ post)) := by
  unfold sscanf_pixel
  rw [cstr_record p hp, scan_fields_record p hp, ← hpre]
  simp [store_fields, Region.store, Pixel.bytes, List.set_append_right]

/-- Loop invariant of the renderer on well-formed records: after reading the
records `ps` the loop has replaced the bytes of the pixels `k .. k + |ps|`
and goes on with the remaining iterations. -/
theorem render_loop_records (m : Nat) (rest : List Char) (post : List Nat) :
    ∀ (ps : List Pixel) (k : Nat) (line : List Char) (pre mid : List Nat),
      (∀ p ∈ ps, p.wf) → pre.length = 4 * k → mid.length = 4 * ps.length →
      render_loop (ps.length + m) k line (source_text ps ++ rest)
          (.mapped (pre ++ mid ++ post)) =
        render_loop m (k + ps.length) (line_after line ps) rest
          (.mapped (pre ++ buffer_bytes ps ++ post)) := by
  intro ps
  induction ps with
  | nil =>
    intro k line pre mid _ _ hmid
    have : mid = [] := List.eq_nil_of_length_eq_zero (by simpa using hmid)
    subst this
    simp [source_text, line_after, buffer_bytes]
  | cons p ps ih =>
    intro k line pre mid hwf hpre hmid
    have hp : p.wf := hwf p (List.mem_cons_self _ _)
    have hps : ∀ q ∈ ps, q.wf := fun q hq => hwf q (List.mem_cons_of_mem _ hq)
    obtain ⟨x0, x1, x2, x3, mid1, rfl, hmid1⟩ :
        ∃ x0 x1 x2 x3 mid1, mid = x0 :: x1 :: x2 :: x3 :: mid1 ∧
          mid1.length = 4 * ps.length := by
      match mid, hmid with
      | x0 :: x1 :: x2 :: x3 :: mid1, h =>
        exact ⟨x0, x1, x2, x3, mid1, rfl, by simp at h; omega⟩
      | [], h => simp at h
      | [_], h => simp at h; omega
      | [_, _], h => simp at h; omega
      | [_, _, _], h => simp at h; omega
    have hstep := sscanf_record p hp k pre (mid1 ++ post) x0 x1 x2 x3 hpre
    have hfg := fgets_record p hp (source_text ps ++ rest)
    have hlen : (p :: ps).length + m = (ps.length + m) + 1 := by simp; omega
    have hsrc : source_text (p :: ps) ++ rest = p.text ++ (source_text ps ++ rest) := by
      simp [source_text]
    rw [hlen, hsrc, render_loop]
    simp only [hfg]
    have hdata : pre ++ x0 :: x1 :: x2 :: x3 :: mid1 ++ post =
        pre ++ x0 :: x1 :: x2 :: x3 :: (mid1 ++ post) := by simp
    rw [hdata, hstep]
    have hpre1 : (pre ++ p.bytes).length = 4 * (k + 1) := by
      simp [Pixel.bytes, hpre]; omega
    have := ih (k + 1) p.text (pre ++ p.bytes) mid1 hps hpre1 hmid1
    simp only [List.append_assoc] at this ⊢
    rw [this]
    simp [line_after, buffer_bytes, Nat.add_assoc, Nat.add_comm 1]

/-- Once the stream is exhausted, every further iteration parses the stale
line again: the record `p` left in `line` is written to every remaining pixel. -/
theorem render_loop_stale (p : Pixel) (hp : p.wf) (post : List Nat) :
    ∀ (m k : Nat) (pre mid : List Nat), pre.length = 4 * k → mid.length = 4 * m →
      render_loop m k p.text [] (.mapped (pre ++ mid ++ post)) =
        .returned (.mapped (pre ++ (List.replicate m p.bytes).flatten ++ post)) := by
  intro m
  induction m with
  | zero =>
    intro k pre mid _ hmid
    have : mid = [] := List.eq_nil_of_length_eq_zero (by simpa using hmid)
    subst this
    simp [render_loop]
  | succ m ih =>
    intro k pre mid hpre hmid
    obtain ⟨x0, x1, x2, x3, mid1, rfl, hmid1⟩ :
        ∃ x0 x1 x2 x3 mid1, mid = x0 :: x1 :: x2 :: x3 :: mid1 ∧ mid1.length = 4 * m := by
      match mid, hmid with
      | x0 :: x1 :: x2 :: x3 :: mid1, h =>
        exact ⟨x0, x1, x2, x3, mid1, rfl, by simp at h; omega⟩
      | [], h => simp at h
      | [_], h => simp at h; omega
      | [_, _], h => simp at h; omega
      | [_, _, _], h => simp at h; omega
    have hstep := sscanf_record p hp k pre (mid1 ++ post) x0 x1 x2 x3 hpre
    have hdata : pre ++ x0 :: x1 :: x2 :: x3 :: mid1 ++ post =
        pre ++ x0 :: x1 :: x2 :: x3 :: (mid1 ++ post) := by simp
    have hpre1 : (pre ++ p.bytes).length = 4 * (k + 1) := by
      simp [Pixel.bytes, hpre]; omega
    have := ih (k + 1) (pre ++ p.bytes) mid1 hpre1 hmid1
    rw [render_loop]
    simp only [fgets]
    rw [hdata, hstep]
    simp only [List.append_assoc] at this ⊢
    rw [this]
    simp [List.replicate_succ]

theorem loop_bound : (height * width) % UINT32 = width * height := by
  decide

theorem buffer_bytes_length (ps : List Pixel) : (buffer_bytes ps).length = 4 * ps.length := by
  induction ps with
  | nil => rfl
  | cons p ps ih => simp [buffer_bytes, Pixel.bytes, ih]; omega

theorem line_after_concat (line : List Char) (ps : List Pixel) (p : Pixel) :
    line_after line (ps ++ [p]) = p.text := by
  induction ps generalizing line with
  | nil => rfl
  | cons q ps ih => simp [line_after, ih]

/-- The four bytes of pixel `k` in the buffer content made from records. -/
theorem buffer_bytes_get (ps : List Pixel) :
    ∀ (k : Nat) (p : Pixel), ps[k]? = some p →
      (buffer_bytes ps)[4 * k]? = some p.b ∧ (buffer_bytes ps)[4 * k + 1]? = some p.g ∧
      (buffer_bytes ps)[4 * k + 2]? = some p.r ∧ (buffer_bytes ps)[4 * k + 3]? = some p.a := by
  induction ps with
  | nil => intro k p h; simp at h
  | cons q ps ih =>
    intro k p h
    cases k with
    | zero =>
      simp only [List.getElem?_cons_zero, Option.some.injEq] at h
      subst h
      simp [buffer_bytes, Pixel.bytes]
    | succ k =>
      simp only [List.getElem?_cons_succ] at h
      obtain ⟨h0, h1, h2, h3⟩ := ih k p h
      have e0 : 4 * (k + 1) = 4 * k + 4 := by omega
      have e1 : 4 * (k + 1) + 1 = (4 * k + 1) + 4 := by omega
      have e2 : 4 * (k + 1) + 2 = (4 * k + 2) + 4 := by omega
      have e3 : 4 * (k + 1) + 3 = (4 * k + 3) + 4 := by omega
      rw [e1, e2, e3, e0]
      simp only [buffer_bytes, Pixel.bytes, List.cons_append, List.nil_append,
        List.getElem?_cons_succ]
      exact ⟨h0, h1, h2, h3⟩

/-- The renderer on a source of exactly `width * height` well-formed records. -/
theorem render_surface_full (ps : List Pixel) (stack : List Char) (prior : List Nat)
    (hlen : ps.length = width * height) (hwf : ∀ p ∈ ps, p.wf)
    (hprior : prior.length = 4 * width * height) :
    render_surface (some (source_text ps)) stack (.mapped prior) =
      .returned (.mapped (buffer_bytes ps)) := by
  have h := render_loop_records 0 [] [] ps 0 stack [] prior hwf (by simp)
    (by rw [hprior, hlen]; ring)
  simp only [Nat.add_zero, List.append_nil, List.nil_append, Nat.zero_add, render_loop] at h
  simp only [render_surface, loop_bound, ← hlen]
  exact h

/-- The renderer on a source that ends after the well-formed records
`ps ++ [p]`, fewer than `width * height`: it returns, and every pixel that
has no record of its own receives the last record `p`. -/
theorem render_surface_short (ps : List Pixel) (p : Pixel) (stack : List Char)
    (prior : List Nat) (hwf : ∀ q ∈ ps ++ [p], q.wf)
    (hlen : (ps ++ [p]).length ≤ width * height)
    (hprior : prior.length = 4 * width * height) :
    render_surface (some (source_text (ps ++ [p]))) stack (.mapped prior) =
      .returned (.mapped (buffer_bytes (ps ++ [p]) ++
        (List.replicate (width * height - (ps ++ [p]).length) p.bytes).flatten)) := by
  have hp : p.wf := hwf p (by simp)
  have hprior : prior.length = 4 * (width * height) := by rw [hprior, Nat.mul_assoc]
  have hsplit : prior = prior.take (4 * (ps ++ [p]).length) ++
      prior.drop (4 * (ps ++ [p]).length) := (List.take_append_drop _ _).symm
  have hmid1 : (prior.take (4 * (ps ++ [p]).length)).length = 4 * (ps ++ [p]).length := by
    rw [List.length_take, hprior]; omega
  have hmid2 : (prior.drop (4 * (ps ++ [p]).length)).length =
      4 * (width * height - (ps ++ [p]).length) := by
    rw [List.length_drop, hprior]; omega
  have h1 := render_loop_records (width * height - (ps ++ [p]).length) []
    (prior.drop (4 * (ps ++ [p]).length)) (ps ++ [p]) 0 stack []
    (prior.take (4 * (ps ++ [p]).length)) hwf (by simp) hmid1
  have h2 := render_loop_stale p hp [] (width * height - (ps ++ [p]).length)
    (0 + (ps ++ [p]).length) (buffer_bytes (ps ++ [p]))
    (prior.drop (4 * (ps ++ [p]).length))
    (by rw [buffer_bytes_length]; omega) hmid2
  have hn : (ps ++ [p]).length + (width * height - (ps ++ [p]).length) = width * height := by
    omega
  simp only [List.nil_append, List.append_nil, line_after_concat, hn, ← hsplit] at h1 h2
  simp only [render_surface, loop_bound]
  rw [h1, h2]

/-! ## Lemmas on the renderer in its context -/

theorem store_fields_mapped (vs : List Nat) :
    ∀ (offs : List Nat) (bytes : List Nat),
      ∃ out, store_fields (.mapped bytes) vs offs = .returned (.mapped out) := by
  induction vs with
  | nil => intro offs bytes; exact ⟨bytes, by simp [store_fields]⟩
  | cons v vs ih =>
    intro offs bytes
    cases offs with
    | nil => exact ⟨bytes, by simp [store_fields]⟩
    | cons off offs =>
      obtain ⟨out, h⟩ := ih offs (bytes.set off v)
      exact ⟨out, by simp [store_fields, Region.store, h]⟩

theorem store_fields_unmapped (vs offs : List Nat) :
    store_fields .unmapped vs offs = .returned .unmapped ∨
      store_fields .unmapped vs offs = .fault := by
  cases vs with
  | nil => left; simp [store_fields]
  | cons v vs =>
    cases offs with
    | nil => left; simp [store_fields]
    | cons off offs => right; simp [store_fields, Region.store]

theorem render_loop_mapped (n : Nat) :
    ∀ (k : Nat) (line fp : List Char) (bytes : List Nat),
      ∃ out, render_loop n k line fp (.mapped bytes) = .returned (.mapped out) := by
  induction n with
  | zero => intro k line fp bytes; exact ⟨bytes, rfl⟩
  | succ n ih =>
    intro k line fp bytes
    rw [render_loop]
    obtain ⟨out1, h1⟩ := store_fields_mapped
      (scan_fields 4 (cstr (match (fgets 100 fp).1 with
        | some l => l
        | none => line))) [4 * k + 2, 4 * k + 1, 4 * k + 0, 4 * k + 3] bytes
    simp only [sscanf_pixel, h1]
    exact ih _ _ _ _

theorem render_loop_unmapped (n : Nat) :
    ∀ (k : Nat) (line fp : List Char),
      render_loop n k line fp .unmapped = .returned .unmapped ∨
        render_loop n k line fp .unmapped = .fault := by
  induction n with
  | zero => intro k line fp; left; rfl
  | succ n ih =>
    intro k line fp
    rw [render_loop]
    rcases store_fields_unmapped
      (scan_fields 4 (cstr (match (fgets 100 fp).1 with
        | some l => l
        | none => line))) [4 * k + 2, 4 * k + 1, 4 * k + 0, 4 * k + 3] with h | h
    · simp only [sscanf_pixel, h]
      exact ih _ _ _
    · right
      simp only [sscanf_pixel, h]

/-- With the file open and the buffer mapped the renderer returns. -/
theorem render_surface_mapped (fp stack : List Char) (bytes : List Nat) :
    render_surface (some fp) stack (.mapped bytes) =
      .returned (.mapped (rendered fp stack bytes)) := by
  obtain ⟨out, h⟩ := render_loop_mapped ((height * width) % UINT32) 0 stack fp bytes
  have h1 : render_surface (some fp) stack (.mapped bytes) = .returned (.mapped out) := h
  simp [rendered, h1]

/-- The renderer returns, leaving the pointer as it was, or faults; it has no
path to `exit`. -/
theorem render_surface_cases (file : Option (List Char)) (stack : List Char) (data : Region) :
    (∃ data1, render_surface file stack data = .returned data1 ∧
        data1.isMapped = data.isMapped) ∨
      render_surface file stack data = .fault := by
  cases file with
  | none => right; rfl
  | some fp =>
    cases data with
    | mapped bytes =>
      left
      exact ⟨_, render_surface_mapped fp stack bytes, rfl⟩
    | unmapped =>
      rcases render_loop_unmapped ((height * width) % UINT32) 0 stack fp with h | h
      · left; exact ⟨.unmapped, h, rfl⟩
      · right; exact h

/-- The statement `render_surface(pixle_data);` records the call and either
returns, changing nothing but the bytes of the mapping, or faults. -/
theorem call_render_cases (env : Env) (st : State) :
    (∃ data, data.isMapped = st.pixle_data.isMapped ∧
        call_render env st =
          ({ st with trace := st.trace ++ [.render_surface st.pixle_data.isMapped],
                     renders := st.renders + 1, pixle_data := data }, .running)) ∨
      call_render env st =
        ({ st with trace := st.trace ++ [.render_surface st.pixle_data.isMapped],
                   renders := st.renders + 1 }, .crashed) := by
  rcases render_surface_cases (env.fopen st.renders) (env.stack st.renders) st.pixle_data with
    ⟨data1, h, hm⟩ | h
  · left
    exact ⟨data1, hm, by simp [call_render, h, emit]⟩
  · right
    simp [call_render, h, emit]

theorem not_render_faults_of_sound (env : Env) (h : env.sound) : ¬ render_faults env true := by
  rintro ⟨n, data, hm, hf⟩
  cases data with
  | unmapped => simp [Region.isMapped] at hm
  | mapped bytes =>
    have hsome := h.2 n
    cases hfo : env.fopen n with
    | none => simp [hfo] at hsome
    | some fp =>
      rw [hfo, render_surface_mapped] at hf
      cases hf

theorem call_render_crashed (env : Env) (st : State) (h : (call_render env st).2 ≠ .running) :
    render_faults env st.pixle_data.isMapped := by
  rcases render_surface_cases (env.fopen st.renders) (env.stack st.renders) st.pixle_data with
    ⟨data1, hr, _⟩ | hr
  · simp [call_render, hr] at h
  · exact ⟨st.renders, st.pixle_data, rfl, hr⟩

/-! ## Lemmas on the handlers and the dispatch -/

theorem registry_global_frame (name : Nat) (interface : String) (version : Nat) (st : State) :
    (registry_global name interface version st).trace = st.trace ++ bind_calls name interface ∧
    (registry_global name interface version st).buffer = st.buffer ∧
    (registry_global name interface version st).pixle_data = st.pixle_data ∧
    (registry_global name interface version st).quit = st.quit := by
  unfold registry_global bind_calls
  split_ifs <;> simp [emit]

/-- What a complete run of `xsurface_configure` or its run up to a fault of
the renderer does to the state. -/
theorem xsurface_configure_cases (env : Env) (serial : Nat) (st : State) :
    ((xsurface_configure env serial st).2 = .running ∧
      (xsurface_configure env serial st).1.trace =
        st.trace ++ (configure_calls st.buffer st.pixle_data.isMapped serial ++
          [.surface_commit]) ∧
      (xsurface_configure env serial st).1.buffer = st.buffer ∧
      (xsurface_configure env serial st).1.pixle_data.isMapped = st.pixle_data.isMapped ∧
      (xsurface_configure env serial st).1.quit = st.quit) ∨
    ((xsurface_configure env serial st).2 = .crashed ∧
      (xsurface_configure env serial st).1.trace =
        st.trace ++ configure_calls st.buffer st.pixle_data.isMapped serial) := by
  rcases call_render_cases env
      (emit (.ack_configure serial)
        (emit (.surface_damage_buffer 0 0 (toInt32 width) (toInt32 height))
          (emit (.surface_attach st.buffer 0 0) st))) with ⟨data, hm, h⟩ | h
  · left
    simp only [xsurface_configure, h]
    simp [emit, configure_calls] at hm ⊢
    exact hm
  · right
    simp only [xsurface_configure, h]
    simp [emit, configure_calls]

/-- One event: its handler runs to its end, or it is a surface-configure
event whose renderer call faults. -/
theorem handle_cases (env : Env) (e : Event) (st : State) :
    ((handle env e st).2 = .running ∧
      (handle env e st).1.trace =
        st.trace ++ event_calls st.buffer st.pixle_data.isMapped e ∧
      (handle env e st).1.buffer = st.buffer ∧
      (handle env e st).1.pixle_data.isMapped = st.pixle_data.isMapped ∧
      (handle env e st).1.quit = (st.quit || e.isClose)) ∨
    ((handle env e st).2 = .crashed ∧
      ∃ serial, e = .xsurface_configure serial ∧
        (handle env e st).1.trace =
          st.trace ++ configure_calls st.buffer st.pixle_data.isMapped serial) := by
  cases e with
  | registry r =>
    left
    cases r with
    | global name interface version =>
      obtain ⟨h1, h2, h3, h4⟩ := registry_global_frame name interface version st
      simp [handle, registry_listener, event_calls, registry_calls, h1, h2, h3, h4,
        Event.isClose]
    | global_remove name =>
      simp [handle, registry_listener, event_calls, registry_calls, registry_global_remove,
        Event.isClose]
  | xsurface_configure serial =>
    rcases xsurface_configure_cases env serial st with ⟨h1, h2, h3, h4, h5⟩ | ⟨h1, h2⟩
    · left
      simp [handle, event_calls, h1, h2, h3, h4, h5, Event.isClose]
    · right
      exact ⟨by simpa [handle] using h1, serial, rfl, by simpa [handle] using h2⟩
  | xtoplevel_configure w h states =>
    left; simp [handle, event_calls, xtoplevel_configure, Event.isClose]
  | xtoplevel_configure_bounds w h =>
    left; simp [handle, event_calls, xtoplevel_configure_bounds, Event.isClose]
  | xtoplevel_close =>
    left; simp [handle, event_calls, xtoplevel_close, Event.isClose]
  | unlistened =>
    left; simp [handle, event_calls, Event.isClose]

/-- A list of events: all handlers run to their end, or the renderer call of
one surface-configure event faults after the events before it were handled. -/
theorem deliver_cases (env : Env) (es : List Event) :
    ∀ st : State,
    ((deliver env es st).2 = .running ∧
      (deliver env es st).1.trace =
        st.trace ++ events_calls st.buffer st.pixle_data.isMapped es ∧
      (deliver env es st).1.buffer = st.buffer ∧
      (deliver env es st).1.pixle_data.isMapped = st.pixle_data.isMapped ∧
      (deliver env es st).1.quit = (st.quit || es.any Event.isClose)) ∨
    ((deliver env es st).2 = .crashed ∧
      ∃ es1 serial es2, es = es1 ++ .xsurface_configure serial :: es2 ∧
        (deliver env es st).1.trace =
          st.trace ++ (events_calls st.buffer st.pixle_data.isMapped es1 ++
            configure_calls st.buffer st.pixle_data.isMapped serial)) := by
  induction es with
  | nil => intro st; left; simp [deliver, events_calls]
  | cons e es ih =>
    intro st
    rcases handle_cases env e st with ⟨h1, h2, h3, h4, h5⟩ | ⟨h1, serial, he, h2⟩
    · have hd : deliver env (e :: es) st = deliver env es (handle env e st).1 := by
        rw [deliver]
        cases hh : handle env e st with
        | mk st1 s1 =>
          rw [hh] at h1
          simp only at h1
          subst h1
          rfl
      rw [hd]
      rcases ih (handle env e st).1 with ⟨k1, k2, k3, k4, k5⟩ | ⟨k1, es1, serial, es2, hes, k2⟩
      · left
        refine ⟨k1, ?_, ?_, ?_, ?_⟩
        · rw [k2, h2, h3, h4]; simp [events_calls]
        · rw [k3, h3]
        · rw [k4, h4]
        · rw [k5, h5]; simp [Bool.or_assoc]
      · right
        refine ⟨k1, e :: es1, serial, es2, by simp [hes], ?_⟩
        rw [k2, h2, h3, h4]; simp [events_calls]
    · right
      have hd : deliver env (e :: es) st = handle env e st := by
        rw [deliver]
        cases hh : handle env e st with
        | mk st1 s1 =>
          rw [hh] at h1
          simp only at h1
          subst h1
          rfl
      rw [hd]
      exact ⟨h1, [], serial, es, by simp [he], by simp [h2, events_calls]⟩

theorem events_calls_append (buffer : Option WlBuffer) (mapped : Bool) (es1 es2 : List Event) :
    events_calls buffer mapped (es1 ++ es2) =
      events_calls buffer mapped es1 ++ events_calls buffer mapped es2 := by
  induction es1 with
  | nil => rfl
  | cons e es1 ih => simp [events_calls, ih]

theorem batches_calls_append (buffer : Option WlBuffer) (mapped : Bool) (bs1 bs2 : List Batch) :
    batches_calls buffer mapped (bs1 ++ bs2) =
      batches_calls buffer mapped bs1 ++ batches_calls buffer mapped bs2 := by
  induction bs1 with
  | nil => rfl
  | cons b bs1 ih => simp [batches_calls, ih]

theorem event_loop_quit (env : Env) (bs : List Batch) (st : State) (hq : st.quit = true) :
    event_loop env bs st = (st, .running) := by
  cases bs <;> simp [event_loop, hq]

/-- One dispatch call: as `deliver_cases`, with the call itself recorded. -/
theorem display_dispatch_cases (env : Env) (b : Batch) (st : State) :
    ((display_dispatch env b st).2 = .running ∧
      (display_dispatch env b st).1.trace =
        st.trace ++ batch_calls st.buffer st.pixle_data.isMapped b ∧
      (display_dispatch env b st).1.buffer = st.buffer ∧
      (display_dispatch env b st).1.pixle_data.isMapped = st.pixle_data.isMapped ∧
      (display_dispatch env b st).1.quit = (st.quit || b.events.any Event.isClose)) ∨
    ((display_dispatch env b st).2 = .crashed ∧
      ∃ es1 serial es2, b.events = es1 ++ .xsurface_configure serial :: es2 ∧
        (display_dispatch env b st).1.trace =
          st.trace ++ (.display_dispatch ::
            (events_calls st.buffer st.pixle_data.isMapped es1 ++
              configure_calls st.buffer st.pixle_data.isMapped serial))) := by
  rcases deliver_cases env b.events (emit .display_dispatch st) with
    ⟨h1, h2, h3, h4, h5⟩ | ⟨h1, es1, serial, es2, hes, h2⟩
  · left
    refine ⟨h1, ?_, h3, h4, h5⟩
    simp only [display_dispatch]
    rw [h2]
    simp [emit, batch_calls]
  · right
    refine ⟨h1, es1, serial, es2, hes, ?_⟩
    simp only [display_dispatch]
    rw [h2]
    simp [emit]

/-- The three ways the event loop can end on a finite list of batches:
blocked in a further dispatch call when no batch held a close event; left
through the `quit` flag after the first batch that held a close event; or
ended by a fault of the renderer inside a surface-configure handler. -/
theorem event_loop_cases (env : Env) (bs : List Batch) :
    ∀ st : State, st.quit = false →
    ((event_loop env bs st).2 = .blocked ∧
      (∀ b ∈ bs, b.events.any Event.isClose = false) ∧
      (event_loop env bs st).1.trace =
        st.trace ++ (batches_calls st.buffer st.pixle_data.isMapped bs ++
          [.display_dispatch])) ∨
    ((event_loop env bs st).2 = .running ∧
      ∃ bs1 b bs2, bs = bs1 ++ b :: bs2 ∧
        (∀ b1 ∈ bs1, b1.events.any Event.isClose = false) ∧
        b.events.any Event.isClose = true ∧
        (event_loop env bs st).1.trace =
          st.trace ++ batches_calls st.buffer st.pixle_data.isMapped (bs1 ++ [b])) ∨
    ((event_loop env bs st).2 = .crashed ∧
      ∃ bs1 b bs2 es1 serial es2, bs = bs1 ++ b :: bs2 ∧
        (∀ b1 ∈ bs1, b1.events.any Event.isClose = false) ∧
        b.events = es1 ++ .xsurface_configure serial :: es2 ∧
        (event_loop env bs st).1.trace =
          st.trace ++ (batches_calls st.buffer st.pixle_data.isMapped bs1 ++
            (.display_dispatch ::
              (events_calls st.buffer st.pixle_data.isMapped es1 ++
                configure_calls st.buffer st.pixle_data.isMapped serial)))) := by
  induction bs with
  | nil =>
    intro st hq
    left
    simp [event_loop, hq, emit, batches_calls]
  | cons b bs ih =>
    intro st hq
    rcases display_dispatch_cases env b st with
      ⟨h1, h2, h3, h4, h5⟩ | ⟨h1, es1, serial, es2, hes, h2⟩
    · have hstep : event_loop env (b :: bs) st =
          event_loop env bs (display_dispatch env b st).1 := by
        rw [event_loop]
        simp only [hq, Bool.false_eq_true, if_false]
        cases hh : display_dispatch env b st with
        | mk st1 s1 =>
          rw [hh] at h1
          simp only at h1
          subst h1
          rfl
      rw [hstep]
      cases hc : b.events.any Event.isClose with
      | true =>
        right; left
        have hq1 : (display_dispatch env b st).1.quit = true := by rw [h5, hc]; simp
        rw [event_loop_quit env bs _ hq1]
        refine ⟨rfl, [], b, bs, rfl, by simp, hc, ?_⟩
        simp [h2, batches_calls]
      | false =>
        have hq1 : (display_dispatch env b st).1.quit = false := by rw [h5, hc, hq]; rfl
        rcases ih (display_dispatch env b st).1 hq1 with
          ⟨k1, k2, k3⟩ | ⟨k1, bs1, b1, bs2, hbs, k2, k3, k4⟩ |
          ⟨k1, bs1, b1, bs2, es1, serial, es2, hbs, k2, k3, k4⟩
        · left
          refine ⟨k1, ?_, ?_⟩
          · intro b1 hb1
            rcases List.mem_cons.mp hb1 with rfl | hb1
            · exact hc
            · exact k2 b1 hb1
          · rw [k3, h2, h3, h4]; simp [batches_calls]
        · right; left
          refine ⟨k1, b :: bs1, b1, bs2, by simp [hbs], ?_, k3, ?_⟩
          · intro b2 hb2
            rcases List.mem_cons.mp hb2 with rfl | hb2
            · exact hc
            · exact k2 b2 hb2
          · rw [k4, h2, h3, h4]; simp [batches_calls]
        · right; right
          refine ⟨k1, b :: bs1, b1, bs2, es1, serial, es2, by simp [hbs], ?_, k3, ?_⟩
          · intro b2 hb2
            rcases List.mem_cons.mp hb2 with rfl | hb2
            · exact hc
            · exact k2 b2 hb2
          · rw [k4, h2, h3, h4]; simp [batches_calls]
    · right; right
      have hstep : event_loop env (b :: bs) st = display_dispatch env b st := by
        rw [event_loop]
        simp only [hq, Bool.false_eq_true, if_false]
        cases hh : display_dispatch env b st with
        | mk st1 s1 =>
          rw [hh] at h1
          simp only at h1
          subst h1
          rfl
      rw [hstep]
      exact ⟨h1, [], b, bs, es1, serial, es2, rfl, by simp, hes, by simp [h2, batches_calls]⟩

/-! ## Lemmas on startup -/

theorem registry_global_handles (name : Nat) (interface : String) (version : Nat) (st : State) :
    ((registry_global name interface version st).compositor.isSome =
      (st.compositor.isSome || decide (interface = "wl_compositor"))) ∧
    ((registry_global name interface version st).shm.isSome =
      (st.shm.isSome || decide (interface = "wl_shm"))) ∧
    ((registry_global name interface version st).shell.isSome =
      (st.shell.isSome || decide (interface = "xdg_wm_base"))) := by
  unfold registry_global
  by_cases h1 : interface = "wl_compositor"
  · subst h1; simp [emit]
  · by_cases h2 : interface = "wl_shm"
    · subst h2; simp [emit]
    · by_cases h3 : interface = "xdg_wm_base"
      · subst h3; simp [emit]
      · simp [h1, h2, h3]

theorem advertised_cons (interface : String) (e : RegistryEvent) (es : List RegistryEvent) :
    advertised interface (e :: es) ↔
      (∃ name version, e = .global name interface version) ∨ advertised interface es := by
  unfold advertised
  rw [List.any_cons, Bool.or_eq_true]
  apply or_congr_left
  cases e with
  | global name i version =>
    simp only [RegistryEvent.announces, beq_iff_eq, RegistryEvent.global.injEq]
    constructor
    · rintro rfl; exact ⟨name, version, rfl, rfl, rfl⟩
    · rintro ⟨_, _, _, h, _⟩; exact h
  | global_remove name => simp [RegistryEvent.announces]

theorem registry_listener_handle (interface : String) (get : State → Option Proxy)
    (hget : ∀ name i version st, (get (registry_global name i version st)).isSome =
      ((get st).isSome || decide (i = interface)))
    (e : RegistryEvent) (st : State) :
    (get (registry_listener e st)).isSome = true ↔
      (get st).isSome = true ∨ ∃ name version, e = .global name interface version := by
  cases e with
  | global name i version =>
    simp only [registry_listener, hget, Bool.or_eq_true, decide_eq_true_eq,
      RegistryEvent.global.injEq]
    constructor
    · rintro (h | h)
      · exact Or.inl h
      · exact Or.inr ⟨name, version, rfl, h, rfl⟩
    · rintro (h | ⟨_, _, _, h, _⟩)
      · exact Or.inl h
      · exact Or.inr h
  | global_remove name =>
    simp [registry_listener, registry_global_remove]

theorem registry_fold_handle (interface : String) (get : State → Option Proxy)
    (hget : ∀ name i version st, (get (registry_global name i version st)).isSome =
      ((get st).isSome || decide (i = interface)))
    (es : List RegistryEvent) :
    ∀ st : State,
      (get (es.foldl (fun st e => registry_listener e st) st)).isSome = true ↔
        (get st).isSome = true ∨ advertised interface es := by
  induction es with
  | nil => intro st; simp [advertised]
  | cons e es ih =>
    intro st
    rw [List.foldl_cons, ih, registry_listener_handle interface get hget, advertised_cons]
    exact or_assoc

theorem registry_fold_frame (es : List RegistryEvent) :
    ∀ st : State,
      (es.foldl (fun st e => registry_listener e st) st).trace =
          st.trace ++ globals_calls es ∧
        (es.foldl (fun st e => registry_listener e st) st).buffer = st.buffer ∧
        (es.foldl (fun st e => registry_listener e st) st).pixle_data = st.pixle_data ∧
        (es.foldl (fun st e => registry_listener e st) st).quit = st.quit := by
  induction es with
  | nil => intro st; simp [globals_calls]
  | cons e es ih =>
    intro st
    rw [List.foldl_cons]
    obtain ⟨h1, h2, h3, h4⟩ := ih (registry_listener e st)
    have hf : (registry_listener e st).trace = st.trace ++ registry_calls e ∧
        (registry_listener e st).buffer = st.buffer ∧
        (registry_listener e st).pixle_data = st.pixle_data ∧
        (registry_listener e st).quit = st.quit := by
      cases e with
      | global name i version =>
        simpa [registry_listener, registry_calls] using registry_global_frame name i version st
      | global_remove name => simp [registry_listener, registry_global_remove, registry_calls]
    obtain ⟨f1, f2, f3, f4⟩ := hf
    refine ⟨?_, ?_, ?_, ?_⟩
    · rw [h1, f1]; simp [globals_calls]
    · rw [h2, f2]
    · rw [h3, f3]
    · rw [h4, f4]

theorem after_roundtrip_frame (env : Env) :
    (after_roundtrip env).trace = connect_calls env ∧
    (after_roundtrip env).buffer = none ∧
    (after_roundtrip env).pixle_data = .unmapped ∧
    (after_roundtrip env).quit = false := by
  obtain ⟨h1, h2, h3, h4⟩ := registry_fold_frame env.globals
    (emit .display_roundtrip (emit .display_get_registry
      (emit (.display_connect wayland_display) { State.init with quit := false })))
  refine ⟨?_, ?_, ?_, ?_⟩
  · simp only [after_roundtrip, display_roundtrip]; rw [h1]
    simp [emit, State.init, connect_calls]
  · simp only [after_roundtrip, display_roundtrip]; rw [h2]; rfl
  · simp only [after_roundtrip, display_roundtrip]; rw [h3]; rfl
  · simp only [after_roundtrip, display_roundtrip]; rw [h4]; rfl

/-- After the round trip a handle is non-null exactly when its interface was
announced. -/
theorem after_roundtrip_handles (env : Env) :
    ((after_roundtrip env).compositor.isSome = true ↔ advertised "wl_compositor" env.globals) ∧
    ((after_roundtrip env).shm.isSome = true ↔ advertised "wl_shm" env.globals) ∧
    ((after_roundtrip env).shell.isSome = true ↔ advertised "xdg_wm_base" env.globals) := by
  refine ⟨?_, ?_, ?_⟩
  · have := registry_fold_handle "wl_compositor" State.compositor
      (fun n i v st => (registry_global_handles n i v st).1) env.globals
      (emit .display_roundtrip (emit .display_get_registry
        (emit (.display_connect wayland_display) { State.init with quit := false })))
    simpa [after_roundtrip, display_roundtrip, emit, State.init] using this
  · have := registry_fold_handle "wl_shm" State.shm
      (fun n i v st => (registry_global_handles n i v st).2.1) env.globals
      (emit .display_roundtrip (emit .display_get_registry
        (emit (.display_connect wayland_display) { State.init with quit := false })))
    simpa [after_roundtrip, display_roundtrip, emit, State.init] using this
  · have := registry_fold_handle "xdg_wm_base" State.shell
      (fun n i v st => (registry_global_handles n i v st).2.2) env.globals
      (emit .display_roundtrip (emit .display_get_registry
        (emit (.display_connect wayland_display) { State.init with quit := false })))
    simpa [after_roundtrip, display_roundtrip, emit, State.init] using this

theorem after_roundtrip_check (env : Env) :
    ((after_roundtrip env).compositor.isNone || (after_roundtrip env).shm.isNone ||
      (after_roundtrip env).shell.isNone) = false ↔ globals_complete env.globals := by
  obtain ⟨h1, h2, h3⟩ := after_roundtrip_handles env
  unfold globals_complete
  rw [← h1, ← h2, ← h3]
  cases (after_roundtrip env).compositor <;> cases (after_roundtrip env).shm <;>
    cases (after_roundtrip env).shell <;> simp

/-- The five ways startup can end. -/
theorem startup_cases (env : Env) :
    (env.connect = false ∧ (startup env).2 = .exited 1 ∧
      (startup env).1.trace = [.display_connect wayland_display]) ∨
    (env.connect = true ∧ ¬ globals_complete env.globals ∧ (startup env).2 = .exited 1 ∧
      (startup env).1.trace = connect_calls env) ∨
    (env.connect = true ∧ globals_complete env.globals ∧
      (env.memfd < 0 ∨ env.ftruncate < 0) ∧ (startup env).2 = .exited 1 ∧
      (startup env).1.trace = connect_calls env ++ [.compositor_create_surface]) ∨
    (env.connect = true ∧ globals_complete env.globals ∧ 0 ≤ env.memfd ∧ 0 ≤ env.ftruncate ∧
      (startup env).2 = .crashed ∧
      (startup env).1.trace =
        connect_calls env ++ setup_calls env ++ [.render_surface env.mmap.isMapped] ∧
      render_faults env env.mmap.isMapped) ∨
    (env.connect = true ∧ globals_complete env.globals ∧ 0 ≤ env.memfd ∧ 0 ≤ env.ftruncate ∧
      (startup env).2 = .running ∧
      (startup env).1.trace =
        connect_calls env ++ setup_calls env ++
          [.render_surface env.mmap.isMapped, .surface_commit] ∧
      (startup env).1.buffer = some the_buffer ∧
      (startup env).1.pixle_data.isMapped = env.mmap.isMapped ∧
      (startup env).1.quit = false) := by
  obtain ⟨t1, t2, t3, t4⟩ := after_roundtrip_frame env
  have hchk := after_roundtrip_check env
  cases hc : env.connect with
  | false =>
    left
    simp [startup, hc, emit, State.init]
  | true =>
    right
    by_cases hg : globals_complete env.globals
    · right
      have hchk1 := hchk.mpr hg
      by_cases hfd : env.memfd < 0
      · left
        refine ⟨rfl, hg, Or.inl hfd, ?_, ?_⟩
        · simp only [startup, hc, ← after_roundtrip.eq_1]
          simp [hchk1, hfd]
        · simp only [startup, hc, ← after_roundtrip.eq_1]
          simp [hchk1, hfd, emit, t1]
      · by_cases hft : env.ftruncate < 0
        · left
          refine ⟨rfl, hg, Or.inr hft, ?_, ?_⟩
          · simp only [startup, hc, ← after_roundtrip.eq_1]
            simp [hchk1, hfd, hft]
          · simp only [startup, hc, ← after_roundtrip.eq_1]
            simp [hchk1, hfd, hft, emit, t1]
        · right
          have hfd1 : 0 ≤ env.memfd := by omega
          have hft1 : 0 ≤ env.ftruncate := by omega
          have hs : startup env =
              (match call_render env (before_render env) with
                | (st, .running) => (emit .surface_commit st, .running)
                | halted => halted) := by
            simp only [startup, hc, ← after_roundtrip.eq_1]
            simp [hchk1, hfd, hft, before_render, the_buffer]
          have hb1 : (before_render env).trace = connect_calls env ++ setup_calls env := by
            simp [before_render, emit, t1, setup_calls]
          have hb2 : (before_render env).pixle_data = env.mmap := by
            simp [before_render, emit]
          have hb3 : (before_render env).buffer = some the_buffer := by
            simp [before_render, emit]
          have hb4 : (before_render env).quit = false := by
            simp [before_render, emit, t4]
          rcases call_render_cases env (before_render env) with ⟨data, hm, h⟩ | h
          · right
            rw [hs, h]
            refine ⟨rfl, hg, hfd1, hft1, rfl, ?_, ?_, ?_, ?_⟩
            · simp [emit, hb1, hb2]
            · simp [emit, hb3]
            · simp [emit, hm, hb2]
            · simp [emit, hb4]
          · left
            have hcr := call_render_crashed env (before_render env) (by rw [h]; simp)
            rw [hb2] at hcr
            rw [hs, h]
            refine ⟨rfl, hg, hfd1, hft1, rfl, ?_, hcr⟩
            simp [hb1, hb2]
    · left
      have hchk1 : ((after_roundtrip env).compositor.isNone ||
          (after_roundtrip env).shm.isNone || (after_roundtrip env).shell.isNone) = true := by
        cases h : ((after_roundtrip env).compositor.isNone ||
          (after_roundtrip env).shm.isNone || (after_roundtrip env).shell.isNone) with
        | true => rfl
        | false => exact absurd (hchk.mp h) hg
      refine ⟨rfl, hg, ?_, ?_⟩
      · simp only [startup, hc, ← after_roundtrip.eq_1]
        simp [hchk1]
      · simp only [startup, hc, ← after_roundtrip.eq_1]
        simp [hchk1, t1]

/-- When startup runs to its end, its state has the single buffer, the
mapping as `mmap` returned it, and `quit` false. -/
theorem startup_running (env : Env) (h : (startup env).2 = .running) :
    env.connect = true ∧ globals_complete env.globals ∧ 0 ≤ env.memfd ∧ 0 ≤ env.ftruncate ∧
    (startup env).1.trace =
      connect_calls env ++ setup_calls env ++
        [.render_surface env.mmap.isMapped, .surface_commit] ∧
    (startup env).1.buffer = some the_buffer ∧
    (startup env).1.pixle_data.isMapped = env.mmap.isMapped ∧
    (startup env).1.quit = false := by
  rcases startup_cases env with ⟨_, h1, _⟩ | ⟨_, _, h1, _⟩ | ⟨_, _, _, h1, _⟩ |
    ⟨_, _, _, _, h1, _⟩ | ⟨h0, h1, h2, h3, _, h5, h6, h7, h8⟩
  · rw [h] at h1; cases h1
  · rw [h] at h1; cases h1
  · rw [h] at h1; cases h1
  · rw [h] at h1; cases h1
  · exact ⟨h0, h1, h2, h3, h5, h6, h7, h8⟩

theorem main_of_startup_halted (env : Env) (h : (startup env).2 ≠ .running) :
    main env = startup env := by
  unfold main
  cases hs : startup env with
  | mk st s =>
    rw [hs] at h
    cases s with
    | running => exact absurd rfl h
    | exited c => rfl
    | crashed => rfl
    | blocked => rfl

theorem main_of_startup_running (env : Env) (h : (startup env).2 = .running) :
    main env =
      (match event_loop env env.dispatch (startup env).1 with
        | (st, .running) => (emit .display_disconnect (emit .registry_destroy st), .exited 0)
        | halted => halted) := by
  unfold main
  cases hs : startup env with
  | mk st s =>
    rw [hs] at h
    simp only at h
    subst h
    rfl

/-- The ways a run of `main` can end once startup has run to its end. -/
theorem main_cases (env : Env) (h : (startup env).2 = .running) :
    ((main env).2 = .blocked ∧
      (∀ b ∈ env.dispatch, b.events.any Event.isClose = false) ∧
      (main env).1.trace =
        (startup env).1.trace ++
          (batches_calls (some the_buffer) env.mmap.isMapped env.dispatch ++
            [.display_dispatch])) ∨
    ((main env).2 = .exited 0 ∧
      ∃ bs1 b bs2, env.dispatch = bs1 ++ b :: bs2 ∧
        (∀ b1 ∈ bs1, b1.events.any Event.isClose = false) ∧
        b.events.any Event.isClose = true ∧
        (main env).1.trace =
          (startup env).1.trace ++
            (batches_calls (some the_buffer) env.mmap.isMapped (bs1 ++ [b]) ++
              [.registry_destroy, .display_disconnect])) ∨
    ((main env).2 = .crashed ∧
      ∃ bs1 b bs2 es1 serial es2, env.dispatch = bs1 ++ b :: bs2 ∧
        (∀ b1 ∈ bs1, b1.events.any Event.isClose = false) ∧
        b.events = es1 ++ .xsurface_configure serial :: es2 ∧
        (main env).1.trace =
          (startup env).1.trace ++
            (batches_calls (some the_buffer) env.mmap.isMapped bs1 ++
              (.display_dispatch ::
                (events_calls (some the_buffer) env.mmap.isMapped es1 ++
                  configure_calls (some the_buffer) env.mmap.isMapped serial)))) := by
  obtain ⟨-, -, -, -, -, hb, hm, hq⟩ := startup_running env h
  rw [main_of_startup_running env h]
  rcases event_loop_cases env env.dispatch (startup env).1 hq with
    ⟨k1, k2, k3⟩ | ⟨k1, bs1, b1, bs2, hbs, k2, k3, k4⟩ |
    ⟨k1, bs1, b1, bs2, es1, serial, es2, hbs, k2, k3, k4⟩
  · left
    cases hh : event_loop env env.dispatch (startup env).1 with
    | mk st1 s1 =>
      rw [hh] at k1 k3
      simp only at k1 k3
      subst k1
      exact ⟨rfl, k2, by simpa [hb, hm] using k3⟩
  · right; left
    cases hh : event_loop env env.dispatch (startup env).1 with
    | mk st1 s1 =>
      rw [hh] at k1 k4
      simp only at k1 k4
      subst k1
      refine ⟨rfl, bs1, b1, bs2, hbs, k2, k3, ?_⟩
      simp only [emit, k4, hb, hm]
      simp
  · right; right
    cases hh : event_loop env env.dispatch (startup env).1 with
    | mk st1 s1 =>
      rw [hh] at k1 k4
      simp only at k1 k4
      subst k1
      exact ⟨rfl, bs1, b1, bs2, es1, serial, es2, hbs, k2, k3, by simpa [hb, hm] using k4⟩

/-! ## Runs without a fault of the renderer -/

theorem xsurface_configure_crashed (env : Env) (serial : Nat) (st : State)
    (h : (xsurface_configure env serial st).2 ≠ .running) :
    render_faults env st.pixle_data.isMapped := by
  have := call_render_crashed env
    (emit (.ack_configure serial)
      (emit (.surface_damage_buffer 0 0 (toInt32 width) (toInt32 height))
        (emit (.surface_attach st.buffer 0 0) st)))
  apply this
  intro hrun
  apply h
  simp only [xsurface_configure]
  cases hh : call_render env
    (emit (.ack_configure serial)
      (emit (.surface_damage_buffer 0 0 (toInt32 width) (toInt32 height))
        (emit (.surface_attach st.buffer 0 0) st))) with
  | mk st1 s1 =>
    rw [hh] at hrun
    simp only at hrun
    subst hrun
    rfl

theorem handle_crashed (env : Env) (e : Event) (st : State)
    (h : (handle env e st).2 ≠ .running) : render_faults env st.pixle_data.isMapped := by
  cases e with
  | xsurface_configure serial => exact xsurface_configure_crashed env serial st h
  | registry r => exact absurd rfl h
  | xtoplevel_configure w h1 states => exact absurd rfl h
  | xtoplevel_configure_bounds w h1 => exact absurd rfl h
  | xtoplevel_close => exact absurd rfl h
  | unlistened => exact absurd rfl h

theorem deliver_sound (env : Env) (es : List Event) :
    ∀ st : State, ¬ render_faults env st.pixle_data.isMapped →
      (deliver env es st).2 = .running := by
  induction es with
  | nil => intro st _; rfl
  | cons e es ih =>
    intro st hnf
    rcases handle_cases env e st with ⟨h1, _, _, h4, _⟩ | ⟨h1, _⟩
    · have hd : deliver env (e :: es) st = deliver env es (handle env e st).1 := by
        rw [deliver]
        cases hh : handle env e st with
        | mk st1 s1 =>
          rw [hh] at h1
          simp only at h1
          subst h1
          rfl
      rw [hd]
      exact ih _ (by rw [h4]; exact hnf)
    · exact absurd (handle_crashed env e st (by rw [h1]; simp)) hnf

theorem display_dispatch_sound (env : Env) (b : Batch) (st : State)
    (hnf : ¬ render_faults env st.pixle_data.isMapped) :
    (display_dispatch env b st).2 = .running :=
  deliver_sound env b.events (emit .display_dispatch st) hnf

/-- Without a fault of the renderer the event loop is the pure function of
the batches given by `loop_status` and `loop_calls`. -/
theorem event_loop_sound (env : Env) (bs : List Batch) :
    ∀ st : State, st.quit = false → ¬ render_faults env st.pixle_data.isMapped →
      (event_loop env bs st).2 = loop_status bs ∧
      (event_loop env bs st).1.trace =
        st.trace ++ loop_calls st.buffer st.pixle_data.isMapped bs := by
  induction bs with
  | nil => intro st hq _; simp [event_loop, hq, emit, loop_status, loop_calls]
  | cons b bs ih =>
    intro st hq hnf
    have hrun := display_dispatch_sound env b st hnf
    rcases display_dispatch_cases env b st with ⟨h1, h2, h3, h4, h5⟩ | ⟨h1, _⟩
    · have hstep : event_loop env (b :: bs) st =
          event_loop env bs (display_dispatch env b st).1 := by
        rw [event_loop]
        simp only [hq, Bool.false_eq_true, if_false]
        cases hh : display_dispatch env b st with
        | mk st1 s1 =>
          rw [hh] at h1
          simp only at h1
          subst h1
          rfl
      rw [hstep]
      cases hc : b.events.any Event.isClose with
      | true =>
        have hq1 : (display_dispatch env b st).1.quit = true := by rw [h5, hc]; simp
        rw [event_loop_quit env bs _ hq1]
        simp [loop_status, loop_calls, hc, h2]
      | false =>
        have hq1 : (display_dispatch env b st).1.quit = false := by rw [h5, hc, hq]; rfl
        obtain ⟨k1, k2⟩ := ih (display_dispatch env b st).1 hq1 (by rw [h4]; exact hnf)
        rw [k1, k2, h2, h3, h4]
        simp [loop_status, loop_calls, hc]
    · rw [hrun] at h1; cases h1

theorem startup_sound (env : Env) (hc : env.connect = true)
    (hg : globals_complete env.globals) (hfd : 0 ≤ env.memfd) (hft : 0 ≤ env.ftruncate)
    (hnf : ¬ render_faults env env.mmap.isMapped) :
    (startup env).2 = .running := by
  rcases startup_cases env with ⟨h0, _⟩ | ⟨_, h0, _⟩ | ⟨_, _, h0, _⟩ |
    ⟨_, _, _, _, h1⟩ | ⟨_, _, _, _, h1, _⟩
  · rw [hc] at h0; cases h0
  · exact absurd hg h0
  · omega
  · exact absurd h1.2.2 hnf
  · exact h1

theorem sound_no_faults (env : Env) (h : env.sound) :
    ¬ render_faults env env.mmap.isMapped := by
  rw [h.1]; exact not_render_faults_of_sound env h

/-- A run in which startup passes its checks and the renderer never faults is
the pure function of the environment given by `main_status`, `loop_calls` and
`cleanup_calls`. -/
theorem main_sound (env : Env) (hc : env.connect = true)
    (hg : globals_complete env.globals) (hfd : 0 ≤ env.memfd) (hft : 0 ≤ env.ftruncate)
    (hnf : ¬ render_faults env env.mmap.isMapped) :
    (main env).2 = main_status env.dispatch ∧
    (main env).1.trace =
      connect_calls env ++ setup_calls env ++
        [.render_surface env.mmap.isMapped, .surface_commit] ++
        loop_calls (some the_buffer) env.mmap.isMapped env.dispatch ++
        cleanup_calls env.dispatch := by
  have hrun := startup_sound env hc hg hfd hft hnf
  obtain ⟨-, -, -, -, ht, hb, hm, hq⟩ := startup_running env hrun
  obtain ⟨k1, k2⟩ := event_loop_sound env env.dispatch (startup env).1 hq
    (by rw [hm]; exact hnf)
  rw [main_of_startup_running env hrun]
  cases hh : event_loop env env.dispatch (startup env).1 with
  | mk st1 s1 =>
    rw [hh] at k1 k2
    simp only at k1 k2
    subst k1
    rw [hb, hm, ht] at k2
    unfold main_status cleanup_calls
    cases hl : loop_status env.dispatch with
    | running => simp [emit, k2]
    | exited c => simp [k2]
    | crashed => simp [k2]
    | blocked => simp [k2]

/-! ## Lemmas on the calls of a run -/

theorem bind_calls_isBind (name : Nat) (interface : String) :
    ∀ c ∈ bind_calls name interface, c.isBind = true := by
  intro c hc
  unfold bind_calls at hc
  split_ifs at hc
  · simp at hc; subst hc; rfl
  · simp at hc; subst hc; rfl
  · simp at hc; subst hc; rfl
  · simp at hc

theorem globals_calls_isBind (es : List RegistryEvent) :
    ∀ c ∈ globals_calls es, c.isBind = true := by
  induction es with
  | nil => intro c hc; simp [globals_calls] at hc
  | cons e es ih =>
    intro c hc
    simp only [globals_calls, List.mem_append] at hc
    rcases hc with hc | hc
    · cases e with
      | global name interface version => exact bind_calls_isBind name interface c hc
      | global_remove name => simp [registry_calls] at hc
    · exact ih c hc

theorem isQuiet_of_isBind {c : Call} (h : c.isBind = true) : c.isQuiet = true := by
  cases c <;> first | rfl | (simp [Call.isBind] at h)

/-- The calls of startup before the renderer are none of attach,
ack_configure and commit. -/
theorem connect_calls_quiet (env : Env) : ∀ c ∈ connect_calls env, c.isQuiet = true := by
  intro c hc
  simp only [connect_calls, List.mem_append, List.mem_cons, List.mem_singleton,
    List.not_mem_nil, or_false] at hc
  rcases hc with (rfl | rfl | rfl) | hc
  · rfl
  · rfl
  · rfl
  · exact isQuiet_of_isBind (globals_calls_isBind _ c hc)

theorem setup_calls_quiet (env : Env) : ∀ c ∈ setup_calls env, c.isQuiet = true := by
  intro c hc
  simp only [setup_calls, List.mem_cons, List.mem_singleton, List.not_mem_nil, or_false] at hc
  rcases hc with rfl | rfl | rfl | rfl | rfl | rfl <;> rfl

theorem LoopShape.append_quiet (l t : List Call) (hl : ∀ c ∈ l, c.isQuiet = true)
    (ht : LoopShape t) : LoopShape (l ++ t) := by
  induction l with
  | nil => exact ht
  | cons c l ih =>
    exact LoopShape.call c (l ++ t) (hl c (List.mem_cons_self _ _))
      (ih (fun d hd => hl d (List.mem_cons_of_mem _ hd)))

theorem LoopShape.events (buffer : Option WlBuffer) (mapped : Bool) (es : List Event)
    (t : List Call) (ht : LoopShape t) : LoopShape (events_calls buffer mapped es ++ t) := by
  induction es with
  | nil => exact ht
  | cons e es ih =>
    simp only [events_calls, List.append_assoc]
    cases e with
    | registry r =>
      cases r with
      | global name interface version =>
        exact LoopShape.append_quiet _ _
          (fun c hc => isQuiet_of_isBind (bind_calls_isBind name interface c hc)) ih
      | global_remove name => exact ih
    | xsurface_configure serial =>
      simp only [event_calls, List.append_assoc, List.singleton_append]
      exact LoopShape.configure buffer mapped serial _ ih
    | xtoplevel_configure w h states => exact ih
    | xtoplevel_configure_bounds w h => exact ih
    | xtoplevel_close => exact ih
    | unlistened => exact ih

theorem LoopShape.batches (buffer : Option WlBuffer) (mapped : Bool) (bs : List Batch)
    (t : List Call) (ht : LoopShape t) : LoopShape (batches_calls buffer mapped bs ++ t) := by
  induction bs with
  | nil => exact ht
  | cons b bs ih =>
    simp only [batches_calls, batch_calls, List.append_assoc, List.cons_append]
    exact LoopShape.call _ _ rfl (LoopShape.events buffer mapped b.events _ ih)

/-- Before its first ack_configure, a trace of the loop shape holds no commit
and at most the attach and damage that directly precede that ack_configure. -/
theorem LoopShape.before_ack {l : List Call} (h : LoopShape l) :
    ∃ q a, l.takeWhile (fun c => !c.isAck) = q ++ a ∧ (∀ c ∈ q, c.isQuiet = true) ∧
      (a = [] ∨ ∃ b, a = [.surface_attach b 0 0,
        .surface_damage_buffer 0 0 (toInt32 width) (toInt32 height)]) := by
  induction h with
  | done => exact ⟨[], [], rfl, by simp, Or.inl rfl⟩
  | call c t hc _ ih =>
    obtain ⟨q, a, h1, h2, h3⟩ := ih
    have hna : (!c.isAck) = true := by
      cases c <;> simp [Call.isQuiet, Call.isAck, Call.isAttach] at hc ⊢
    refine ⟨c :: q, a, ?_, ?_, h3⟩
    · rw [List.takeWhile_cons]
      simp only [hna, if_true]
      rw [h1]; rfl
    · intro d hd
      rcases List.mem_cons.mp hd with rfl | hd
      · exact hc
      · exact h2 d hd
  | configure b m s t _ _ =>
    exact ⟨[], _, by simp [configure_calls, Call.isAck, List.takeWhile], by simp,
      Or.inr ⟨b, rfl⟩⟩
  | fault b m s =>
    exact ⟨[], _, by simp [configure_calls, Call.isAck, List.takeWhile], by simp,
      Or.inr ⟨b, rfl⟩⟩

/-- In a trace of the loop shape every attach is directly followed by the
damage request and the ack_configure of the same handler. -/
theorem LoopShape.attach_acked {l : List Call} (h : LoopShape l) :
    ∀ pre b x y post, l = pre ++ .surface_attach b x y :: post →
      ∃ serial rest, post = .surface_damage_buffer 0 0 (toInt32 width) (toInt32 height) ::
        .ack_configure serial :: rest := by
  induction h with
  | done => intro pre b x y post h; simp at h
  | call c t hc _ ih =>
    intro pre b x y post h
    cases pre with
    | nil =>
      simp only [List.nil_append, List.cons.injEq] at h
      rw [h.1] at hc
      simp [Call.isQuiet, Call.isAttach] at hc
    | cons d pre =>
      simp only [List.cons_append, List.cons.injEq] at h
      exact ih pre b x y post h.2
  | configure b0 m s t _ ih =>
    intro pre b x y post h
    simp only [configure_calls, List.cons_append, List.nil_append] at h
    rcases pre with _ | ⟨d1, _ | ⟨d2, _ | ⟨d3, _ | ⟨d4, _ | ⟨d5, pre⟩⟩⟩⟩⟩ <;>
      simp only [List.nil_append, List.cons_append, List.cons.injEq, reduceCtorEq,
        false_and, and_false] at h
    · exact ⟨s, _, h.2.symm⟩
    · exact ih pre b x y post h.2.2.2.2.2
  | fault b0 m s =>
    intro pre b x y post h
    simp only [configure_calls] at h
    rcases pre with _ | ⟨d1, _ | ⟨d2, _ | ⟨d3, _ | ⟨d4, pre⟩⟩⟩⟩ <;>
      simp only [List.nil_append, List.cons_append, List.cons.injEq, reduceCtorEq,
        false_and, and_false] at h
    · exact ⟨s, _, h.2.symm⟩
    · have := h.2.2.2.2
      simp at this

theorem before_commit_quiet (env : Env) :
    ∀ c ∈ connect_calls env ++ setup_calls env ++ [.render_surface env.mmap.isMapped],
      c.isQuiet = true := by
  intro c hc
  simp only [List.mem_append, List.mem_singleton] at hc
  rcases hc with (hc | hc) | rfl
  · exact connect_calls_quiet env c hc
  · exact setup_calls_quiet env c hc
  · rfl

/-- The trace of every run: calls that are none of attach, ack_configure and
commit, then, when startup runs to its end, its commit followed by a trace
of the loop shape. -/
theorem main_trace_shape (env : Env) :
    ∃ q l, (∀ c ∈ q, c.isQuiet = true) ∧ LoopShape l ∧
      (((main env).1.trace = q ∧ l = []) ∨ (main env).1.trace = q ++ .surface_commit :: l) := by
  by_cases hrun : (startup env).2 = .running
  · obtain ⟨-, -, -, -, ht, -, -, -⟩ := startup_running env hrun
    have hq := before_commit_quiet env
    have hS : (startup env).1.trace =
        (connect_calls env ++ setup_calls env ++ [.render_surface env.mmap.isMapped]) ++
          [.surface_commit] := by
      rw [ht]; simp
    have key : ∀ X, LoopShape X → (main env).1.trace = (startup env).1.trace ++ X →
        ∃ q l, (∀ c ∈ q, c.isQuiet = true) ∧ LoopShape l ∧
          (((main env).1.trace = q ∧ l = []) ∨
            (main env).1.trace = q ++ .surface_commit :: l) := by
      intro X hX k
      refine ⟨connect_calls env ++ setup_calls env ++ [.render_surface env.mmap.isMapped],
        X, hq, hX, Or.inr ?_⟩
      rw [k, hS, List.append_assoc, List.singleton_append]
    rcases main_cases env hrun with ⟨-, -, k⟩ | ⟨-, bs1, b, bs2, -, -, -, k⟩ |
      ⟨-, bs1, b, bs2, es1, serial, es2, -, -, -, k⟩
    · exact key _ (LoopShape.batches _ _ _ _
        (LoopShape.call .display_dispatch _ rfl LoopShape.done)) k
    · exact key _ (LoopShape.batches _ _ _ _
        (LoopShape.call .registry_destroy _ rfl
          (LoopShape.call .display_disconnect _ rfl LoopShape.done))) k
    · exact key _ (LoopShape.batches _ _ _ _ (LoopShape.call .display_dispatch _ rfl
        (LoopShape.events _ _ _ _ (LoopShape.fault _ _ _)))) k
  · rw [main_of_startup_halted env hrun]
    refine ⟨(startup env).1.trace, [], ?_, LoopShape.done, Or.inl ⟨rfl, rfl⟩⟩
    rcases startup_cases env with ⟨_, _, h⟩ | ⟨_, _, _, h⟩ | ⟨_, _, _, _, h⟩ |
      ⟨_, _, _, _, _, h, _⟩ | ⟨_, _, _, _, h, _⟩
    · rw [h]; intro c hc; simp at hc; subst hc; rfl
    · rw [h]; exact connect_calls_quiet env
    · rw [h]; intro c hc
      simp only [List.mem_append, List.mem_singleton] at hc
      rcases hc with hc | rfl
      · exact connect_calls_quiet env c hc
      · rfl
    · rw [h]; exact before_commit_quiet env
    · exact absurd h hrun

/-! ## Counting lemmas -/

theorem acked_serials_append (l1 l2 : List Call) :
    acked_serials (l1 ++ l2) = acked_serials l1 ++ acked_serials l2 := by
  induction l1 with
  | nil => rfl
  | cons c l1 ih => cases c <;> simp [acked_serials, ih]

theorem acked_serials_quiet (l : List Call) (h : ∀ c ∈ l, c.isQuiet = true) :
    acked_serials l = [] := by
  induction l with
  | nil => rfl
  | cons c l ih =>
    have hc := h c (List.mem_cons_self _ _)
    have hl := ih (fun d hd => h d (List.mem_cons_of_mem _ hd))
    cases c <;> first
      | (simp [acked_serials, hl]; done)
      | (exfalso; simp [Call.isQuiet, Call.isAck, Call.isAttach] at hc)

theorem configure_serials_append (es1 es2 : List Event) :
    configure_serials (es1 ++ es2) = configure_serials es1 ++ configure_serials es2 := by
  induction es1 with
  | nil => rfl
  | cons e es1 ih => cases e <;> simp [configure_serials, ih]

theorem batches_events_append (bs1 bs2 : List Batch) :
    batches_events (bs1 ++ bs2) = batches_events bs1 ++ batches_events bs2 := by
  induction bs1 with
  | nil => rfl
  | cons b bs1 ih => simp [batches_events, ih]

theorem bind_calls_facts (name : Nat) (interface : String) :
    acked_serials (bind_calls name interface) = [] ∧
    (bind_calls name interface).count .surface_commit = 0 ∧
    (bind_calls name interface).filter Call.isAttach = [] ∧
    (bind_calls name interface).filter Call.isRender = [] := by
  unfold bind_calls
  split_ifs <;> simp [acked_serials, Call.isAttach, Call.isRender]

theorem registry_calls_facts (r : RegistryEvent) :
    acked_serials (registry_calls r) = [] ∧
    (registry_calls r).count .surface_commit = 0 ∧
    (registry_calls r).filter Call.isAttach = [] ∧
    (registry_calls r).filter Call.isRender = [] := by
  cases r with
  | global name interface version => exact bind_calls_facts name interface
  | global_remove name => simp [registry_calls, acked_serials]

/-- The acks, commits, attaches and renderer calls of a list of events whose
handlers run to their end: one of each per surface-configure event. -/
theorem events_calls_facts (buffer : Option WlBuffer) (mapped : Bool) (es : List Event) :
    acked_serials (events_calls buffer mapped es) = configure_serials es ∧
    (events_calls buffer mapped es).count .surface_commit = (configure_serials es).length ∧
    ((events_calls buffer mapped es).filter Call.isAttach).length =
      (configure_serials es).length ∧
    ((events_calls buffer mapped es).filter Call.isRender).length =
      (configure_serials es).length := by
  induction es with
  | nil => simp [events_calls, acked_serials, configure_serials]
  | cons e es ih =>
    obtain ⟨h1, h2, h3, h4⟩ := ih
    cases e with
    | registry r =>
      obtain ⟨r1, r2, r3, r4⟩ := registry_calls_facts r
      simp [events_calls, event_calls, configure_serials, acked_serials_append, h1, h2, h3, h4,
        r1, r2, r3, r4]
    | xsurface_configure serial =>
      simp [events_calls, event_calls, configure_calls, configure_serials, acked_serials, h1,
        h2, h3, h4, Call.isAttach, Call.isRender]
    | xtoplevel_configure w h states =>
      simp [events_calls, event_calls, configure_serials, h1, h2, h3, h4]
    | xtoplevel_configure_bounds w h =>
      simp [events_calls, event_calls, configure_serials, h1, h2, h3, h4]
    | xtoplevel_close => simp [events_calls, event_calls, configure_serials, h1, h2, h3, h4]
    | unlistened => simp [events_calls, event_calls, configure_serials, h1, h2, h3, h4]

/-- Which calls a list of events can make. -/
theorem mem_events_calls {buffer : Option WlBuffer} {mapped : Bool} {es : List Event}
    {c : Call} (h : c ∈ events_calls buffer mapped es) :
    c.isBind = true ∨ ∃ serial, c ∈ configure_calls buffer mapped serial ++ [.surface_commit] := by
  induction es with
  | nil => simp [events_calls] at h
  | cons e es ih =>
    simp only [events_calls, List.mem_append] at h
    rcases h with h | h
    · cases e with
      | registry r =>
        cases r with
        | global name interface version => exact Or.inl (bind_calls_isBind _ _ c h)
        | global_remove name => simp [event_calls, registry_calls] at h
      | xsurface_configure serial => exact Or.inr ⟨serial, h⟩
      | xtoplevel_configure w h1 states => simp [event_calls] at h
      | xtoplevel_configure_bounds w h1 => simp [event_calls] at h
      | xtoplevel_close => simp [event_calls] at h
      | unlistened => simp [event_calls] at h
    · exact ih h

theorem batches_calls_facts (buffer : Option WlBuffer) (mapped : Bool) (bs : List Batch) :
    acked_serials (batches_calls buffer mapped bs) = configure_serials (batches_events bs) ∧
    (batches_calls buffer mapped bs).count .surface_commit =
      (configure_serials (batches_events bs)).length ∧
    ((batches_calls buffer mapped bs).filter Call.isAttach).length =
      (configure_serials (batches_events bs)).length ∧
    ((batches_calls buffer mapped bs).filter Call.isRender).length =
      (configure_serials (batches_events bs)).length ∧
    (batches_calls buffer mapped bs).count .display_dispatch = bs.length := by
  induction bs with
  | nil => simp [batches_calls, batches_events, acked_serials, configure_serials]
  | cons b bs ih =>
    obtain ⟨h1, h2, h3, h4, h5⟩ := ih
    obtain ⟨e1, e2, e3, e4⟩ := events_calls_facts buffer mapped b.events
    have e5 : (events_calls buffer mapped b.events).count .display_dispatch = 0 := by
      rw [List.count_eq_zero]
      intro hmem
      rcases mem_events_calls hmem with hb | ⟨serial, hs⟩
      · simp [Call.isBind] at hb
      · simp [configure_calls] at hs
    simp [batches_calls, batch_calls, batches_events, acked_serials, acked_serials_append,
      configure_serials_append, h1, h2, h3, h4, h5, e1, e2, e3, e4, e5, Call.isAttach,
      Call.isRender]

/-- Which calls a list of batches can make. -/
theorem mem_batches_calls {buffer : Option WlBuffer} {mapped : Bool} {bs : List Batch}
    {c : Call} (h : c ∈ batches_calls buffer mapped bs) :
    c = .display_dispatch ∨ c.isBind = true ∨
      ∃ serial, c ∈ configure_calls buffer mapped serial ++ [.surface_commit] := by
  induction bs with
  | nil => simp [batches_calls] at h
  | cons b bs ih =>
    simp only [batches_calls, batch_calls, List.mem_append, List.mem_cons] at h
    rcases h with (h | h) | h
    · exact Or.inl h
    · exact Or.inr (mem_events_calls h)
    · exact ih h

theorem startup_trace_running (env : Env) (h : (startup env).2 = .running) :
    (startup env).1.trace =
      (connect_calls env ++ setup_calls env ++ [.render_surface env.mmap.isMapped]) ++
        [.surface_commit] := by
  obtain ⟨-, -, -, -, ht, -, -, -⟩ := startup_running env h
  rw [ht]; simp

theorem startup_trace_halted_quiet (env : Env) (h : (startup env).2 ≠ .running) :
    ∀ c ∈ (startup env).1.trace, c.isQuiet = true := by
  rcases startup_cases env with ⟨_, _, h1⟩ | ⟨_, _, _, h1⟩ | ⟨_, _, _, _, h1⟩ |
    ⟨_, _, _, _, _, h1, _⟩ | ⟨_, _, _, _, h1, _⟩
  · rw [h1]; intro c hc; simp at hc; subst hc; rfl
  · rw [h1]; exact connect_calls_quiet env
  · rw [h1]; intro c hc
    simp only [List.mem_append, List.mem_singleton] at hc
    rcases hc with hc | rfl
    · exact connect_calls_quiet env c hc
    · rfl
  · rw [h1]; exact before_commit_quiet env
  · exact absurd h1 h

/-- Startup never acknowledges anything. -/
theorem acked_serials_startup (env : Env) : acked_serials (startup env).1.trace = [] := by
  by_cases h : (startup env).2 = .running
  · rw [startup_trace_running env h, acked_serials_append,
      acked_serials_quiet _ (before_commit_quiet env)]
    rfl
  · exact acked_serials_quiet _ (startup_trace_halted_quiet env h)

/-- A list equation `s ++ l = pre ++ x :: post` with `x` not in `s` splits
inside `l`. -/
theorem split_after {α : Type} (x : α) (l post : List α) :
    ∀ (s pre : List α), x ∉ s → s ++ l = pre ++ x :: post →
      ∃ pre1, pre = s ++ pre1 ∧ l = pre1 ++ x :: post := by
  intro s
  induction s with
  | nil => intro pre _ h; exact ⟨pre, rfl, h⟩
  | cons a s ih =>
    intro pre hx h
    cases pre with
    | nil =>
      simp only [List.cons_append, List.nil_append, List.cons.injEq] at h
      exact absurd (h.1 ▸ List.mem_cons_self _ _) hx
    | cons a1 pre =>
      simp only [List.cons_append, List.cons.injEq] at h
      obtain ⟨pre1, h1, h2⟩ := ih pre (fun hm => hx (List.mem_cons_of_mem _ hm)) h.2
      exact ⟨pre1, by rw [h1, h.1]; rfl, h2⟩

theorem quiet_facts {c : Call} (h : c.isQuiet = true) :
    c.isAttach = false ∧ c.isAck = false ∧ c ≠ .surface_commit := by
  cases c <;> simp [Call.isQuiet, Call.isAttach, Call.isAck] at h ⊢

theorem connect_calls_facts (env : Env) :
    ∀ c ∈ connect_calls env, c.isCreateBuffer = false ∧ c.isWindowRequest = false := by
  intro c hc
  simp only [connect_calls, List.mem_append, List.mem_cons, List.mem_singleton,
    List.not_mem_nil, or_false] at hc
  rcases hc with (rfl | rfl | rfl) | hc
  · exact ⟨rfl, rfl⟩
  · exact ⟨rfl, rfl⟩
  · exact ⟨rfl, rfl⟩
  · have hb := globals_calls_isBind _ c hc
    cases c <;> first | exact ⟨rfl, rfl⟩ | (simp [Call.isBind] at hb)

/-- What the calls of the event loop are, for the properties of the attached
buffer: every attach is an attach of the given buffer at the origin, every
damage covers the whole surface, and no buffer is created. -/
theorem batches_calls_requests (buffer : Option WlBuffer) (mapped : Bool) (bs : List Batch) :
    ∀ c ∈ batches_calls buffer mapped bs,
      (c.isAttach = true → c = .surface_attach buffer 0 0) ∧
      (c.isDamage = true →
        c = .surface_damage_buffer 0 0 (toInt32 width) (toInt32 height)) ∧
      c.isCreateBuffer = false := by
  intro c hc
  rcases mem_batches_calls hc with rfl | hb | ⟨serial, hs⟩
  · simp [Call.isAttach, Call.isDamage, Call.isCreateBuffer]
  · cases c <;> first
      | (simp [Call.isBind] at hb; done)
      | simp [Call.isAttach, Call.isDamage, Call.isCreateBuffer]
  · simp only [configure_calls, List.cons_append, List.nil_append, List.mem_cons,
      List.mem_singleton, List.not_mem_nil, or_false] at hs
    rcases hs with rfl | rfl | rfl | rfl | rfl <;>
      simp [Call.isAttach, Call.isDamage, Call.isCreateBuffer]

/-- Startup creates exactly one buffer, at offset 0 and of the size of the
window, attaches nothing and commits once. -/
theorem startup_requests (env : Env) (h : (startup env).2 = .running) :
    (startup env).1.trace.filter Call.isCreateBuffer =
      [.shm_pool_create_buffer 0 (toInt32 width) (toInt32 height) (toInt32 stride)
        WL_SHM_FORMAT_ARGB8888] ∧
    (∀ c ∈ (startup env).1.trace, c.isAttach = false) ∧
    (startup env).1.trace.count .surface_commit = 1 := by
  have ht := startup_trace_running env h
  have hq := before_commit_quiet env
  refine ⟨?_, ?_, ?_⟩
  · obtain ⟨-, -, -, -, ht1, -, -, -⟩ := startup_running env h
    rw [ht1]
    have h1 : (connect_calls env).filter Call.isCreateBuffer = [] :=
      List.filter_eq_nil_iff.mpr (fun c hc => by rw [(connect_calls_facts env c hc).1]; simp)
    rw [List.filter_append, List.filter_append, h1]
    rfl
  · rw [ht]
    intro c hc
    rcases List.mem_append.mp hc with hc | hc
    · exact (quiet_facts (hq c hc)).1
    · rw [List.mem_singleton.mp hc]; rfl
  · rw [ht, List.count_append,
      List.count_eq_zero.mpr (fun hm => (quiet_facts (hq _ hm)).2.2 rfl)]
    rfl

/-- The first element of a list that satisfies `p` is determined. -/
theorem first_split_unique {α : Type} (p : α → Bool) (x x1 : α) (l2 l3 : List α)
    (hx : p x = true) (hx1 : p x1 = true) :
    ∀ (l l1 : List α), (∀ a ∈ l, p a = false) → (∀ a ∈ l1, p a = false) →
      l ++ x :: l2 = l1 ++ x1 :: l3 → l = l1 ∧ x = x1 ∧ l2 = l3 := by
  intro l
  induction l with
  | nil =>
    intro l1 _ h1 h
    cases l1 with
    | nil =>
      simp only [List.nil_append, List.cons.injEq] at h
      exact ⟨rfl, h.1, h.2⟩
    | cons a l1 =>
      simp only [List.nil_append, List.cons_append, List.cons.injEq] at h
      have := h1 a (List.mem_cons_self _ _)
      rw [← h.1, hx] at this
      cases this
  | cons a l ih =>
    intro l1 h0 h1 h
    cases l1 with
    | nil =>
      simp only [List.nil_append, List.cons_append, List.cons.injEq] at h
      have := h0 a (List.mem_cons_self _ _)
      rw [h.1, hx1] at this
      cases this
    | cons a1 l1 =>
      simp only [List.cons_append, List.cons.injEq] at h
      obtain ⟨e1, e2, e3⟩ := ih l1 (fun b hb => h0 b (List.mem_cons_of_mem _ hb))
        (fun b hb => h1 b (List.mem_cons_of_mem _ hb)) h.2
      exact ⟨by rw [h.1, e1], e2, e3⟩

/-- An element that satisfies `p` comes after a segment none of whose
elements does. -/
theorem first_split_later {α : Type} (p : α → Bool) (x x1 : α) (l2 l3 : List α)
    (hx1 : p x1 = true) :
    ∀ (l l1 : List α), (∀ a ∈ l ++ [x], p a = false) →
      l ++ x :: l2 = l1 ++ x1 :: l3 → l.length + 1 ≤ l1.length := by
  intro l
  induction l with
  | nil =>
    intro l1 h0 h
    cases l1 with
    | nil =>
      simp only [List.nil_append, List.cons.injEq] at h
      have := h0 x (by simp)
      rw [h.1, hx1] at this
      cases this
    | cons a l1 => simp
  | cons a l ih =>
    intro l1 h0 h
    cases l1 with
    | nil =>
      simp only [List.nil_append, List.cons_append, List.cons.injEq] at h
      have := h0 a (by simp)
      rw [h.1, hx1] at this
      cases this
    | cons a1 l1 =>
      simp only [List.cons_append, List.cons.injEq] at h
      have := ih l1 (fun b hb => h0 b (by
        simp only [List.cons_append, List.mem_cons]
        exact Or.inr hb)) h.2
      simp only [List.length_cons]
      omega

theorem handle_close_frame (env : Env) (st : State) :
    (handle env .xtoplevel_close st).1.quit = true ∧
    (handle env .xtoplevel_close st).1.trace = st.trace ∧
    (handle env .xtoplevel_close st).1.buffer = st.buffer ∧
    (handle env .xtoplevel_close st).1.pixle_data = st.pixle_data :=
  ⟨rfl, rfl, rfl, rfl⟩

/-! ## The return value of dispatch is not used -/

theorem call_render_congr (env env1 : Env) (hf : env1.fopen = env.fopen)
    (hs : env1.stack = env.stack) (st : State) : call_render env1 st = call_render env st := by
  simp [call_render, hf, hs]

theorem handle_congr (env env1 : Env) (hf : env1.fopen = env.fopen)
    (hs : env1.stack = env.stack) (e : Event) (st : State) :
    handle env1 e st = handle env e st := by
  cases e <;> simp [handle, xsurface_configure, call_render_congr env env1 hf hs]

theorem deliver_congr (env env1 : Env) (hf : env1.fopen = env.fopen)
    (hs : env1.stack = env.stack) (es : List Event) :
    ∀ st : State, deliver env1 es st = deliver env es st := by
  induction es with
  | nil => intro st; rfl
  | cons e es ih =>
    intro st
    simp only [deliver, handle_congr env env1 hf hs, ih]

/-- The event loop does the same whatever the dispatch calls return. -/
theorem event_loop_rets (env env1 : Env) (hf : env1.fopen = env.fopen)
    (hs : env1.stack = env.stack) (rets : Batch → Int) (bs : List Batch) :
    ∀ st : State,
      event_loop env1 (bs.map (fun b => { b with ret := rets b })) st =
        event_loop env bs st := by
  induction bs with
  | nil => intro st; rfl
  | cons b bs ih =>
    intro st
    simp only [List.map_cons, event_loop, display_dispatch, deliver_congr env env1 hf hs, ih]

theorem startup_congr (env env1 : Env) (h1 : env1.connect = env.connect)
    (h2 : env1.globals = env.globals) (h3 : env1.memfd = env.memfd)
    (h4 : env1.ftruncate = env.ftruncate) (h5 : env1.mmap = env.mmap)
    (hf : env1.fopen = env.fopen) (hs : env1.stack = env.stack) :
    startup env1 = startup env := by
  simp only [startup, display_roundtrip, h1, h2, h3, h4, h5, call_render_congr env env1 hf hs]

/-- A run of `main` does the same whatever the dispatch calls return. -/
theorem main_rets (env : Env) (rets : Batch → Int) :
    main { env with dispatch := env.dispatch.map (fun b => { b with ret := rets b }) } =
      main env := by
  have hst := startup_congr env
    { env with dispatch := env.dispatch.map (fun b => { b with ret := rets b }) }
    rfl rfl rfl rfl rfl rfl rfl
  simp only [main, hst]
  cases hs : startup env with
  | mk st s =>
    cases s with
    | running =>
      simp only
      rw [event_loop_rets env
        { env with dispatch := env.dispatch.map (fun b => { b with ret := rets b }) }
        rfl rfl rets env.dispatch st]
    | exited c => rfl
    | crashed => rfl
    | blocked => rfl

/-! ## The claims -/

theorem env_ok_sound (bs : List Batch) : (env_ok bs).sound := ⟨rfl, fun _ => rfl⟩

theorem env_ok_globals (bs : List Batch) : globals_complete (env_ok bs).globals := by
  show globals_complete [.global 1 "wl_compositor" 5, .global 2 "wl_shm" 1,
    .global 3 "xdg_wm_base" 3, .global 4 "wl_seat" 8]
  decide

/-- What `main` does in the environment `env_ok bs`. -/
theorem main_env_ok (bs : List Batch) :
    (main (env_ok bs)).2 = main_status bs ∧
    (main (env_ok bs)).1.trace =
      connect_calls (env_ok bs) ++ setup_calls (env_ok bs) ++
        [.render_surface true, .surface_commit] ++
        loop_calls (some the_buffer) true bs ++ cleanup_calls bs :=
  main_sound (env_ok bs) rfl (env_ok_globals bs) (by simp [env_ok]) (by simp [env_ok])
    (sound_no_faults _ (env_ok_sound bs))

/-- C1. For every pixel source made of exactly `width * height` well-formed
records `R:G:B:A` and every prior content of the destination buffer,
`render_surface` returns with a buffer whose byte `4k` is the B value of
record `k`, byte `4k+1` its G value, byte `4k+2` its R value and byte `4k+3`
its A value, for every `k < width * height`.  The resulting buffer has
`4 * width * height` bytes and is the same for every prior content (and for
every initial content of the line array). -/
theorem render_surface_channel_swap (ps : List Pixel) (stack : List Char) (prior : List Nat)
    (hlen : ps.length = width * height) (hwf : ∀ p ∈ ps, p.wf)
    (hprior : prior.length = 4 * width * height) :
    ∃ out, render_surface (some (source_text ps)) stack (.mapped prior) =
        .returned (.mapped out) ∧
      out = buffer_bytes ps ∧ out.length = 4 * width * height ∧
      ∀ k, k < width * height → ∃ p, ps[k]? = some p ∧
        out[4 * k]? = some p.b ∧ out[4 * k + 1]? = some p.g ∧
        out[4 * k + 2]? = some p.r ∧ out[4 * k + 3]? = some p.a := by
  refine ⟨buffer_bytes ps, render_surface_full ps stack prior hlen hwf hprior, rfl, ?_, ?_⟩
  · rw [buffer_bytes_length, hlen, Nat.mul_assoc]
  · intro k hk
    have hk1 : k < ps.length := by rw [hlen]; exact hk
    refine ⟨ps[k], List.getElem?_eq_getElem hk1, ?_⟩
    exact buffer_bytes_get ps k ps[k] (List.getElem?_eq_getElem hk1)

/-- C1, on a source of `width * height` records `1:2:3:4` and a buffer of
zero bytes. -/
theorem render_surface_channel_swap_witness :
    full_source.length = width * height ∧ (∀ p ∈ full_source, p.wf) ∧
    zero_buffer.length = 4 * width * height ∧
    ∃ out, render_surface (some (source_text full_source)) [] (.mapped zero_buffer) =
        .returned (.mapped out) ∧
      out = buffer_bytes full_source ∧ out.length = 4 * width * height ∧
      ∀ k, k < width * height → ∃ p, full_source[k]? = some p ∧
        out[4 * k]? = some p.b ∧ out[4 * k + 1]? = some p.g ∧
        out[4 * k + 2]? = some p.r ∧ out[4 * k + 3]? = some p.a :=
  have h1 : full_source.length = width * height := List.length_replicate _ _
  have h2 : ∀ p ∈ full_source, p.wf := fun p hp => by
    rw [List.eq_of_mem_replicate hp]; decide
  have h3 : zero_buffer.length = 4 * width * height := List.length_replicate _ _
  ⟨h1, h2, h3, render_surface_channel_swap full_source [] zero_buffer h1 h2 h3⟩

/-- C2 as stated fails.  The source `1:2:3:4` has one line, fewer than
`width * height`, and `render_surface` does not fail: it returns, having
written the record to the first pixel and, from the stale line array, to every
other pixel. -/
theorem render_surface_truncated_returns :
    source_text [⟨1, 2, 3, 4⟩] = "1:2:3:4\n".toList ∧
    ([⟨1, 2, 3, 4⟩] : List Pixel).length < width * height ∧
    render_surface (some "1:2:3:4\n".toList) [] (.mapped zero_buffer) =
      .returned (.mapped ([3, 2, 1, 4] ++
        (List.replicate (width * height - 1) [3, 2, 1, 4]).flatten)) ∧
    render_surface (some "1:2:3:4\n".toList) [] (.mapped zero_buffer) ≠ .exited 1 := by
  have hsrc : source_text [⟨1, 2, 3, 4⟩] = "1:2:3:4\n".toList := by decide
  have h := render_surface_short [] ⟨1, 2, 3, 4⟩ [] zero_buffer
    (by intro q hq; simp at hq; subst hq; decide) (by decide) (List.length_replicate _ _)
  have h1 : render_surface (some "1:2:3:4\n".toList) [] (.mapped zero_buffer) =
      .returned (.mapped ([3, 2, 1, 4] ++
        (List.replicate (width * height - 1) [3, 2, 1, 4]).flatten)) := by
    rw [← hsrc]; exact h
  refine ⟨hsrc, by decide, h1, ?_⟩
  rw [h1]
  exact fun h => Outcome.noConfusion h

/-- C2 amended.  `render_surface` has no truncation error: whatever the pixel
file holds, once the file is open and the buffer mapped the call returns.  For
a pixel source made of `m` well-formed records with `1 ≤ m < width * height`,
the first `m` pixels hold the records and every remaining pixel holds the last
record again, parsed from the line array that `fgets` left untouched. -/
theorem render_surface_truncated (ps : List Pixel) (p : Pixel) (stack : List Char)
    (prior : List Nat) (hwf : ∀ q ∈ ps ++ [p], q.wf)
    (hlen : (ps ++ [p]).length < width * height)
    (hprior : prior.length = 4 * width * height) :
    (∀ (fp line : List Char) (bytes : List Nat),
      ∃ out, render_surface (some fp) line (.mapped bytes) = .returned (.mapped out)) ∧
    render_surface (some (source_text (ps ++ [p]))) stack (.mapped prior) =
      .returned (.mapped (buffer_bytes (ps ++ [p]) ++
        (List.replicate (width * height - (ps ++ [p]).length) p.bytes).flatten)) :=
  ⟨fun fp line bytes => ⟨_, render_surface_mapped fp line bytes⟩,
    render_surface_short ps p stack prior hwf (Nat.le_of_lt hlen) hprior⟩

/-- C2 amended, on the two-line source `9:8:7:6`, `1:2:3:4`. -/
theorem render_surface_truncated_witness :
    (∀ q ∈ [px9876] ++ [px1234], q.wf) ∧
    ([px9876] ++ [px1234]).length < width * height ∧
    zero_buffer.length = 4 * width * height ∧
    render_surface (some (source_text ([px9876] ++ [px1234]))) [] (.mapped zero_buffer) =
      .returned (.mapped (buffer_bytes ([px9876] ++ [px1234]) ++
        (List.replicate (width * height - ([px9876] ++ [px1234]).length)
          px1234.bytes).flatten)) :=
  have h1 : ∀ q ∈ [px9876] ++ [px1234], q.wf := by decide
  have h2 : ([px9876] ++ [px1234]).length < width * height := by decide
  have h3 : zero_buffer.length = 4 * width * height := List.length_replicate _ _
  ⟨h1, h2, h3, (render_surface_truncated [px9876] px1234 [] zero_buffer h1 h2 h3).2⟩

/-- C3. For every surface-configure event with serial `s`, the calls made by
`xsurface_configure` are attach, damage, exactly one `ack_configure`, whose
serial is `s`, the renderer call, and then the single commit (which is
missing only when the renderer call faults): the ack comes before the commit.
Hence, when the handlers of a list of events run to their end, the serials
acknowledged are the serials of its configure events in the same order; and
in every run of `main` the acknowledged serials are an initial segment of the
serials of the configure events the server sends. -/
theorem xsurface_configure_acks_serial (env : Env) (serial : Nat) (st : State) :
    (∃ tail, (xsurface_configure env serial st).1.trace =
        st.trace ++ [.surface_attach st.buffer 0 0,
          .surface_damage_buffer 0 0 (toInt32 width) (toInt32 height),
          .ack_configure serial, .render_surface st.pixle_data.isMapped] ++ tail ∧
      (((xsurface_configure env serial st).2 = .running ∧ tail = [.surface_commit]) ∨
        ((xsurface_configure env serial st).2 = .crashed ∧ tail = []))) ∧
    (∀ es : List Event, (deliver env es st).2 = .running →
      acked_serials (deliver env es st).1.trace =
        acked_serials st.trace ++ configure_serials es) ∧
    (∃ rest, acked_serials (main env).1.trace ++ rest =
      configure_serials (batches_events env.dispatch)) := by
  refine ⟨?_, ?_, ?_⟩
  · rcases xsurface_configure_cases env serial st with ⟨h1, h2, -⟩ | ⟨h1, h2⟩
    · exact ⟨[.surface_commit], by rw [h2]; simp [configure_calls], Or.inl ⟨h1, rfl⟩⟩
    · exact ⟨[], by rw [h2]; simp [configure_calls], Or.inr ⟨h1, rfl⟩⟩
  · intro es hrun
    rcases deliver_cases env es st with ⟨-, h2, -⟩ | ⟨h1, -⟩
    · rw [h2, acked_serials_append, (events_calls_facts _ _ es).1]
    · rw [hrun] at h1; cases h1
  · by_cases hrun : (startup env).2 = .running
    · have hs := acked_serials_startup env
      rcases main_cases env hrun with ⟨-, -, k⟩ | ⟨-, bs1, b, bs2, hbs, -, -, k⟩ |
        ⟨-, bs1, b, bs2, es1, s, es2, hbs, -, hes, k⟩
      · refine ⟨[], ?_⟩
        rw [k, acked_serials_append, acked_serials_append, hs,
          (batches_calls_facts _ _ _).1]
        simp [acked_serials]
      · refine ⟨configure_serials (batches_events bs2), ?_⟩
        rw [k, acked_serials_append, acked_serials_append, hs,
          (batches_calls_facts _ _ _).1, hbs]
        simp [acked_serials, batches_events_append, configure_serials_append, batches_events]
      · refine ⟨configure_serials es2 ++ configure_serials (batches_events bs2), ?_⟩
        rw [k, acked_serials_append, acked_serials_append, hs,
          (batches_calls_facts _ _ _).1, hbs, batches_events_append,
          configure_serials_append]
        simp [acked_serials, acked_serials_append, (events_calls_facts _ _ es1).1,
          configure_calls, batches_events, hes, configure_serials_append, configure_serials]
    · rw [main_of_startup_halted env hrun, acked_serials_startup]
      exact ⟨_, rfl⟩

/-- C3, in the environment `env_ok []`, on two configure events with an
event without listener between them, delivered in the state startup ends in. -/
theorem xsurface_configure_acks_serial_witness :
    (deliver (env_ok []) [.xsurface_configure 7, .unlistened, .xsurface_configure 9]
      (startup (env_ok [])).1).2 = .running ∧
    acked_serials (deliver (env_ok [])
      [.xsurface_configure 7, .unlistened, .xsurface_configure 9]
      (startup (env_ok [])).1).1.trace =
        acked_serials (startup (env_ok [])).1.trace ++ [7, 9] :=
  have hnf := sound_no_faults _ (env_ok_sound [])
  have hrun : (startup (env_ok [])).2 = .running :=
    startup_sound _ rfl (env_ok_globals []) (by simp [env_ok]) (by simp [env_ok]) hnf
  have hm : (startup (env_ok [])).1.pixle_data.isMapped = (env_ok []).mmap.isMapped :=
    (startup_running _ hrun).2.2.2.2.2.2.1
  have h : (deliver (env_ok []) [.xsurface_configure 7, .unlistened, .xsurface_configure 9]
      (startup (env_ok [])).1).2 = .running :=
    deliver_sound _ _ _ (by rw [hm]; exact hnf)
  ⟨h, (xsurface_configure_acks_serial (env_ok []) 0 (startup (env_ok [])).1).2.1 _ h⟩

/-- The trace of `main` in the environment `env_ok one_configure`. -/
theorem trace_one_configure :
    (main (env_ok one_configure)).1.trace =
      [.display_connect "wayland-1", .display_get_registry, .display_roundtrip,
       .registry_bind 1 "wl_compositor" 4, .registry_bind 2 "wl_shm" 1,
       .registry_bind 3 "xdg_wm_base" 1, .compositor_create_surface,
       .shm_create_pool 3 331776, .shm_pool_create_buffer 0 288 288 1152 0,
       .get_xdg_surface, .get_toplevel, .set_title "Wayland Logo",
       .render_surface true, .surface_commit,
       .display_dispatch,
       .surface_attach (some ⟨0, 288, 288, 1152, 0⟩) 0 0,
       .surface_damage_buffer 0 0 288 288,
       .ack_configure 7, .render_surface true, .surface_commit,
       .display_dispatch] := by
  rw [(main_env_ok one_configure).2]; rfl

/-- C4 as stated fails.  In the environment `env_ok`, with one dispatch that
delivers one surface-configure event of serial 7, the trace of `main` has the
commit of startup and the attach of the handler before the first (and only)
`ack_configure`. -/
theorem commit_and_attach_before_first_ack :
    (main (env_ok one_configure)).1.trace =
      [.display_connect "wayland-1", .display_get_registry, .display_roundtrip,
       .registry_bind 1 "wl_compositor" 4, .registry_bind 2 "wl_shm" 1,
       .registry_bind 3 "xdg_wm_base" 1, .compositor_create_surface,
       .shm_create_pool 3 331776, .shm_pool_create_buffer 0 288 288 1152 0,
       .get_xdg_surface, .get_toplevel, .set_title "Wayland Logo",
       .render_surface true, .surface_commit,
       .display_dispatch,
       .surface_attach (some ⟨0, 288, 288, 1152, 0⟩) 0 0,
       .surface_damage_buffer 0 0 288 288,
       .ack_configure 7, .render_surface true, .surface_commit,
       .display_dispatch] ∧
    ((main (env_ok one_configure)).1.trace.takeWhile
      (fun c => !c.isAck)).count .surface_commit = 1 ∧
    (((main (env_ok one_configure)).1.trace.takeWhile
      (fun c => !c.isAck)).filter Call.isAttach).length = 1 := by
  refine ⟨trace_one_configure, ?_, ?_⟩
  · rw [trace_one_configure]; rfl
  · rw [trace_one_configure]; rfl

/-- C4 amended.  In the trace of every run of `main`: nothing is attached or
acknowledged before the first commit (the commit at the end of startup);
before the first `ack_configure` there is at most one commit and at most one
attach; and every attach is directly followed by the damage request and the
`ack_configure` of the same handler, so that no commit comes between an attach
and its acknowledgement. -/
theorem attach_commit_order (env : Env) :
    (∀ c ∈ (main env).1.trace.takeWhile (fun c => !(c == .surface_commit)),
      c.isAttach = false ∧ c.isAck = false) ∧
    ((main env).1.trace.takeWhile (fun c => !c.isAck)).count .surface_commit ≤ 1 ∧
    (((main env).1.trace.takeWhile (fun c => !c.isAck)).filter Call.isAttach).length ≤ 1 ∧
    (∀ pre b x y post, (main env).1.trace = pre ++ .surface_attach b x y :: post →
      ∃ serial rest, post =
        .surface_damage_buffer 0 0 (toInt32 width) (toInt32 height) ::
          .ack_configure serial :: rest) := by
  obtain ⟨q, l, hq, hl, ht | ht⟩ := main_trace_shape env
  · obtain ⟨ht, -⟩ := ht
    rw [ht]
    refine ⟨?_, ?_, ?_, ?_⟩
    · intro c hc
      have := quiet_facts (hq c (List.takeWhile_subset _ hc))
      exact ⟨this.1, this.2.1⟩
    · rw [List.count_eq_zero.mpr]
      · exact Nat.zero_le _
      · intro hm
        exact (quiet_facts (hq _ (List.takeWhile_subset _ hm))).2.2 rfl
    · rw [List.filter_eq_nil_iff.mpr]
      · exact Nat.zero_le _
      · intro c hc
        rw [(quiet_facts (hq c (List.takeWhile_subset _ hc))).1]
        simp
    · intro pre b x y post h
      have hm : Call.surface_attach b x y ∈ q := by rw [h]; simp
      have := (quiet_facts (hq _ hm)).1
      simp [Call.isAttach] at this
  · rw [ht]
    have hq1 : ∀ c ∈ q, (fun c : Call => !(c == .surface_commit)) c = true := by
      intro c hc
      simpa using (quiet_facts (hq c hc)).2.2
    have hq2 : ∀ c ∈ q, (fun c : Call => !c.isAck) c = true := by
      intro c hc
      simp [(quiet_facts (hq c hc)).2.1]
    have hcount : q.count .surface_commit = 0 :=
      List.count_eq_zero.mpr (fun hm => (quiet_facts (hq _ hm)).2.2 rfl)
    have hfilter : q.filter Call.isAttach = [] :=
      List.filter_eq_nil_iff.mpr (fun c hc => by rw [(quiet_facts (hq c hc)).1]; simp)
    obtain ⟨q1, a, h1, h2, h3⟩ := hl.before_ack
    have hcount1 : q1.count .surface_commit = 0 :=
      List.count_eq_zero.mpr (fun hm => (quiet_facts (h2 _ hm)).2.2 rfl)
    have hfilter1 : q1.filter Call.isAttach = [] :=
      List.filter_eq_nil_iff.mpr (fun c hc => by rw [(quiet_facts (h2 c hc)).1]; simp)
    refine ⟨?_, ?_, ?_, ?_⟩
    · rw [List.takeWhile_append_of_pos hq1]
      intro c hc
      simp only [List.takeWhile_cons, beq_self_eq_true, Bool.not_true, Bool.false_eq_true,
        if_false, List.append_nil] at hc
      have := quiet_facts (hq c hc)
      exact ⟨this.1, this.2.1⟩
    · rw [List.takeWhile_append_of_pos hq2, List.takeWhile_cons]
      have hc : (!Call.isAck .surface_commit) = true := rfl
      simp only [hc, if_true, h1]
      rcases h3 with rfl | ⟨b, rfl⟩
      · simp [hcount, hcount1]
      · simp [hcount, hcount1]
    · rw [List.takeWhile_append_of_pos hq2, List.takeWhile_cons]
      have hc : (!Call.isAck .surface_commit) = true := rfl
      simp only [hc, if_true, h1]
      rcases h3 with rfl | ⟨b, rfl⟩
      · simp [hfilter, hfilter1, Call.isAttach]
      · simp [hfilter, hfilter1, Call.isAttach]
    · intro pre b x y post h
      have hsplit : q ++ .surface_commit :: l = (q ++ [.surface_commit]) ++ l := by simp
      rw [hsplit] at h
      have hnot : Call.surface_attach b x y ∉ q ++ [.surface_commit] := by
        intro hm
        simp only [List.mem_append, List.mem_singleton, reduceCtorEq, or_false] at hm
        have := (quiet_facts (hq _ hm)).1
        simp [Call.isAttach] at this
      obtain ⟨pre1, -, hl1⟩ := split_after _ l post _ pre hnot h
      exact hl.attach_acked pre1 b x y post hl1

/-- C4 amended, in the environment `env_ok one_configure`: the attach of the
run is directly followed by the damage request and `ack_configure 7`. -/
theorem attach_commit_order_witness :
    (main (env_ok one_configure)).1.trace =
      [.display_connect "wayland-1", .display_get_registry, .display_roundtrip,
       .registry_bind 1 "wl_compositor" 4, .registry_bind 2 "wl_shm" 1,
       .registry_bind 3 "xdg_wm_base" 1, .compositor_create_surface,
       .shm_create_pool 3 331776, .shm_pool_create_buffer 0 288 288 1152 0,
       .get_xdg_surface, .get_toplevel, .set_title "Wayland Logo",
       .render_surface true, .surface_commit, .display_dispatch] ++
      .surface_attach (some ⟨0, 288, 288, 1152, 0⟩) 0 0 ::
        [.surface_damage_buffer 0 0 288 288, .ack_configure 7, .render_surface true,
         .surface_commit, .display_dispatch] ∧
    ∃ serial rest,
      [Call.surface_damage_buffer 0 0 288 288, .ack_configure 7, .render_surface true,
         .surface_commit, .display_dispatch] =
        .surface_damage_buffer 0 0 (toInt32 width) (toInt32 height) ::
          .ack_configure serial :: rest :=
  have h : (main (env_ok one_configure)).1.trace =
      [.display_connect "wayland-1", .display_get_registry, .display_roundtrip,
       .registry_bind 1 "wl_compositor" 4, .registry_bind 2 "wl_shm" 1,
       .registry_bind 3 "xdg_wm_base" 1, .compositor_create_surface,
       .shm_create_pool 3 331776, .shm_pool_create_buffer 0 288 288 1152 0,
       .get_xdg_surface, .get_toplevel, .set_title "Wayland Logo",
       .render_surface true, .surface_commit, .display_dispatch] ++
      .surface_attach (some ⟨0, 288, 288, 1152, 0⟩) 0 0 ::
        [.surface_damage_buffer 0 0 288 288, .ack_configure 7, .render_surface true,
         .surface_commit, .display_dispatch] := trace_one_configure
  ⟨h, (attach_commit_order (env_ok one_configure)).2.2.2 _ _ _ _ _ h⟩

/-- C5. For every run in which startup runs to its end and all the batches
the server sends are dispatched and handled (no close event before the last
batch, no fault), with `n` the number of surface-configure events delivered:
the calls made after startup hold exactly `n` commits and `n` attaches; every
attach attaches, at the origin, the buffer `the_buffer`, which is the one
buffer created in the run, at offset 0 and of size `width` by `height`; and
every damage request covers `0, 0, width, height`.  Startup itself has made
one more commit, before anything was attached.  This holds for every `n`, in
particular for `n ≥ 1`. -/
theorem one_commit_per_configure (env : Env)
    (hstart : (startup env).2 = .running)
    (hall : ∀ b ∈ env.dispatch.dropLast, b.events.any Event.isClose = false)
    (hok : (main env).2 ≠ .crashed) :
    ∃ tail, (main env).1.trace = (startup env).1.trace ++ tail ∧
      tail.count .surface_commit = (configure_serials (batches_events env.dispatch)).length ∧
      (tail.filter Call.isAttach).length =
        (configure_serials (batches_events env.dispatch)).length ∧
      (∀ c ∈ tail, c.isAttach = true → c = .surface_attach (some the_buffer) 0 0) ∧
      (∀ c ∈ tail, c.isDamage = true →
        c = .surface_damage_buffer 0 0 (toInt32 width) (toInt32 height)) ∧
      (∀ c ∈ tail, c.isCreateBuffer = false) ∧
      (startup env).1.trace.filter Call.isCreateBuffer =
        [.shm_pool_create_buffer 0 (toInt32 width) (toInt32 height) (toInt32 stride)
          WL_SHM_FORMAT_ARGB8888] ∧
      (∀ c ∈ (startup env).1.trace, c.isAttach = false) ∧
      (startup env).1.trace.count .surface_commit = 1 ∧
      the_buffer = ⟨0, 288, 288, 1152, 0⟩ ∧ toInt32 width = 288 ∧ toInt32 height = 288 := by
  obtain ⟨s1, s2, s3⟩ := startup_requests env hstart
  have key : ∀ extra : List Call, (∀ c ∈ extra, c = .display_dispatch ∨
      c = .registry_destroy ∨ c = .display_disconnect) →
      (main env).1.trace = (startup env).1.trace ++
        (batches_calls (some the_buffer) env.mmap.isMapped env.dispatch ++ extra) →
      ∃ tail, (main env).1.trace = (startup env).1.trace ++ tail ∧
        tail.count .surface_commit =
          (configure_serials (batches_events env.dispatch)).length ∧
        (tail.filter Call.isAttach).length =
          (configure_serials (batches_events env.dispatch)).length ∧
        (∀ c ∈ tail, c.isAttach = true → c = .surface_attach (some the_buffer) 0 0) ∧
        (∀ c ∈ tail, c.isDamage = true →
          c = .surface_damage_buffer 0 0 (toInt32 width) (toInt32 height)) ∧
        (∀ c ∈ tail, c.isCreateBuffer = false) ∧
        (startup env).1.trace.filter Call.isCreateBuffer =
          [.shm_pool_create_buffer 0 (toInt32 width) (toInt32 height) (toInt32 stride)
            WL_SHM_FORMAT_ARGB8888] ∧
        (∀ c ∈ (startup env).1.trace, c.isAttach = false) ∧
        (startup env).1.trace.count .surface_commit = 1 ∧
        the_buffer = ⟨0, 288, 288, 1152, 0⟩ ∧ toInt32 width = 288 ∧ toInt32 height = 288 := by
    intro extra hextra k
    obtain ⟨-, f2, f3, -, -⟩ := batches_calls_facts (some the_buffer) env.mmap.isMapped
      env.dispatch
    have hx : ∀ c ∈ extra, c.isAttach = false ∧ c.isDamage = false ∧
        c.isCreateBuffer = false ∧ c ≠ .surface_commit := by
      intro c hc
      rcases hextra c hc with rfl | rfl | rfl <;> simp [Call.isAttach, Call.isDamage,
        Call.isCreateBuffer]
    have hx1 : extra.count .surface_commit = 0 :=
      List.count_eq_zero.mpr (fun hm => (hx _ hm).2.2.2 rfl)
    have hx2 : extra.filter Call.isAttach = [] :=
      List.filter_eq_nil_iff.mpr (fun c hc => by rw [(hx c hc).1]; simp)
    refine ⟨_, k, ?_, ?_, ?_, ?_, ?_, s1, s2, s3, by decide, by decide, by decide⟩
    · rw [List.count_append, f2, hx1]; rfl
    · rw [List.filter_append, List.length_append, f3, hx2]; rfl
    · intro c hc hatt
      rcases List.mem_append.mp hc with hc | hc
      · exact (batches_calls_requests _ _ _ c hc).1 hatt
      · rw [(hx c hc).1] at hatt; cases hatt
    · intro c hc hd
      rcases List.mem_append.mp hc with hc | hc
      · exact (batches_calls_requests _ _ _ c hc).2.1 hd
      · rw [(hx c hc).2.1] at hd; cases hd
    · intro c hc
      rcases List.mem_append.mp hc with hc | hc
      · exact (batches_calls_requests _ _ _ c hc).2.2
      · exact (hx c hc).2.2.1
  rcases main_cases env hstart with ⟨-, -, k⟩ | ⟨-, bs1, b, bs2, hbs, -, hb, k⟩ | ⟨hc, -⟩
  · exact key [.display_dispatch] (by simp) k
  · have hbs2 : bs2 = [] := by
      cases bs2 with
      | nil => rfl
      | cons c bs2 =>
        exfalso
        have hmem : b ∈ env.dispatch.dropLast := by
          rw [hbs, List.dropLast_append_cons, List.dropLast_cons₂]
          simp
        rw [hall b hmem] at hb
        cases hb
    subst hbs2
    rw [← hbs] at k
    exact key [.registry_destroy, .display_disconnect] (by simp) k
  · exact absurd hc hok

/-- C5, in the environment `env_ok` with two dispatches that deliver three
surface-configure events, the last batch holding a close event. -/
theorem one_commit_per_configure_witness :
    (startup (env_ok three_configures)).2 = .running ∧
    (∀ b ∈ (env_ok three_configures).dispatch.dropLast,
      b.events.any Event.isClose = false) ∧
    (main (env_ok three_configures)).2 ≠ .crashed ∧
    ∃ tail, (main (env_ok three_configures)).1.trace =
        (startup (env_ok three_configures)).1.trace ++ tail ∧
      tail.count .surface_commit = 3 ∧
      (tail.filter Call.isAttach).length = 3 ∧
      (∀ c ∈ tail, c.isAttach = true → c = .surface_attach (some the_buffer) 0 0) ∧
      (∀ c ∈ tail, c.isDamage = true →
        c = .surface_damage_buffer 0 0 (toInt32 width) (toInt32 height)) ∧
      (∀ c ∈ tail, c.isCreateBuffer = false) ∧
      (startup (env_ok three_configures)).1.trace.filter Call.isCreateBuffer =
        [.shm_pool_create_buffer 0 (toInt32 width) (toInt32 height) (toInt32 stride)
          WL_SHM_FORMAT_ARGB8888] ∧
      (∀ c ∈ (startup (env_ok three_configures)).1.trace, c.isAttach = false) ∧
      (startup (env_ok three_configures)).1.trace.count .surface_commit = 1 ∧
      the_buffer = ⟨0, 288, 288, 1152, 0⟩ ∧ toInt32 width = 288 ∧ toInt32 height = 288 :=
  have h1 : (startup (env_ok three_configures)).2 = .running :=
    startup_sound _ rfl (env_ok_globals _) (by simp [env_ok]) (by simp [env_ok])
      (sound_no_faults _ (env_ok_sound _))
  have h2 : ∀ b ∈ (env_ok three_configures).dispatch.dropLast,
      b.events.any Event.isClose = false := by decide
  have h3 : (main (env_ok three_configures)).2 ≠ .crashed := by
    rw [(main_env_ok three_configures).1]; decide
  ⟨h1, h2, h3, one_commit_per_configure (env_ok three_configures) h1 h2 h3⟩

/-- C6. For every list of globals announced during the initial round trip in
which at least one of `wl_compositor`, `wl_shm`, `xdg_wm_base` does not occur,
`main` ends with exit status 1 and its trace holds no `create_surface`,
`create_pool`, `create_buffer`, `get_xdg_surface`, `get_toplevel`, attach or
commit request. -/
theorem missing_global_is_fatal (env : Env)
    (h : ¬ advertised "wl_compositor" env.globals ∨ ¬ advertised "wl_shm" env.globals ∨
      ¬ advertised "xdg_wm_base" env.globals) :
    (main env).2 = .exited 1 ∧ ∀ c ∈ (main env).1.trace, c.isWindowRequest = false := by
  have hg : ¬ globals_complete env.globals := by
    rintro ⟨h1, h2, h3⟩
    rcases h with h | h | h
    · exact h h1
    · exact h h2
    · exact h h3
  rcases startup_cases env with ⟨_, h1, h2⟩ | ⟨_, _, h1, h2⟩ | ⟨_, hc, _⟩ | ⟨_, hc, _⟩ |
    ⟨_, hc, _⟩
  · rw [main_of_startup_halted env (by rw [h1]; simp), h1, h2]
    refine ⟨rfl, ?_⟩
    intro c hc
    rw [List.mem_singleton.mp hc]; rfl
  · rw [main_of_startup_halted env (by rw [h1]; simp), h1, h2]
    exact ⟨rfl, fun c hc => (connect_calls_facts env c hc).2⟩
  · exact absurd hc hg
  · exact absurd hc hg
  · exact absurd hc hg

/-- C6, in an environment whose server announces `wl_compositor`,
`xdg_wm_base` and `wl_seat` but no `wl_shm`. -/
theorem missing_global_is_fatal_witness :
    (¬ advertised "wl_compositor" env_no_shm.globals ∨
      ¬ advertised "wl_shm" env_no_shm.globals ∨
      ¬ advertised "xdg_wm_base" env_no_shm.globals) ∧
    (main env_no_shm).2 = .exited 1 ∧
    ∀ c ∈ (main env_no_shm).1.trace, c.isWindowRequest = false :=
  have h : ¬ advertised "wl_compositor" env_no_shm.globals ∨
      ¬ advertised "wl_shm" env_no_shm.globals ∨
      ¬ advertised "xdg_wm_base" env_no_shm.globals :=
    Or.inr (Or.inl (by decide))
  ⟨h, missing_global_is_fatal env_no_shm h⟩

/-- C7 as stated fails.  In the environment `env_ok`, with one dispatch that
delivers a close event and then a surface-configure event of serial 7: the
close handler sets `quit`, and the configure handler that runs after it in
the same batch still calls the renderer and commits.  The loop then ends and
`main` returns 0. -/
theorem render_and_commit_after_close :
    (main (env_ok close_then_configure)).2 = .exited 0 ∧
    (main (env_ok close_then_configure)).1.trace =
      [.display_connect "wayland-1", .display_get_registry, .display_roundtrip,
       .registry_bind 1 "wl_compositor" 4, .registry_bind 2 "wl_shm" 1,
       .registry_bind 3 "xdg_wm_base" 1, .compositor_create_surface,
       .shm_create_pool 3 331776, .shm_pool_create_buffer 0 288 288 1152 0,
       .get_xdg_surface, .get_toplevel, .set_title "Wayland Logo",
       .render_surface true, .surface_commit,
       .display_dispatch,
       .surface_attach (some ⟨0, 288, 288, 1152, 0⟩) 0 0,
       .surface_damage_buffer 0 0 288 288,
       .ack_configure 7, .render_surface true, .surface_commit,
       .registry_destroy, .display_disconnect] ∧
    (handle (env_ok close_then_configure) .xtoplevel_close
      (startup (env_ok close_then_configure)).1).1.quit = true ∧
    (handle (env_ok close_then_configure) (.xsurface_configure 7)
      (handle (env_ok close_then_configure) .xtoplevel_close
        (startup (env_ok close_then_configure)).1).1).1.trace =
      (startup (env_ok close_then_configure)).1.trace ++
        [.surface_attach (some ⟨0, 288, 288, 1152, 0⟩) 0 0,
         .surface_damage_buffer 0 0 288 288,
         .ack_configure 7, .render_surface true, .surface_commit] := by
  have hnf := sound_no_faults _ (env_ok_sound close_then_configure)
  have hrun : (startup (env_ok close_then_configure)).2 = .running :=
    startup_sound _ rfl (env_ok_globals _) (by simp [env_ok]) (by simp [env_ok]) hnf
  obtain ⟨-, -, -, -, -, hb, hm, -⟩ := startup_running _ hrun
  obtain ⟨c1, c2, c3, c4⟩ := handle_close_frame (env_ok close_then_configure)
    (startup (env_ok close_then_configure)).1
  refine ⟨?_, ?_, c1, ?_⟩
  · rw [(main_env_ok close_then_configure).1]; rfl
  · rw [(main_env_ok close_then_configure).2]; rfl
  · rcases handle_cases (env_ok close_then_configure) (.xsurface_configure 7)
      (handle (env_ok close_then_configure) .xtoplevel_close
        (startup (env_ok close_then_configure)).1).1 with ⟨-, h2, -⟩ | ⟨h1, -⟩
    · rw [h2, c2, c3, c4, hb, hm]
      rfl
    · exfalso
      have hf := handle_crashed (env_ok close_then_configure) (.xsurface_configure 7)
        (handle (env_ok close_then_configure) .xtoplevel_close
          (startup (env_ok close_then_configure)).1).1 (by rw [h1]; simp)
      rw [c4, hm] at hf
      exact hnf hf

/-- C7 amended.  Once a close event has been handled, the events that remain
in the same dispatch batch are still handled: each surface-configure event
among them calls the renderer and commits once more.  After that batch the
client makes no further dispatch call, renderer call or commit: the loop ends
at its next check, `main` cleans up and returns 0 (unless a renderer call in
the rest of the batch faults).  The batches after that one are never
dispatched. -/
theorem close_ends_after_batch (env : Env) (bs1 : List Batch) (b : Batch) (bs2 : List Batch)
    (es1 es2 : List Event)
    (hstart : (startup env).2 = .running)
    (hd : env.dispatch = bs1 ++ b :: bs2)
    (hbs1 : ∀ b1 ∈ bs1, b1.events.any Event.isClose = false)
    (hb : b.events = es1 ++ .xtoplevel_close :: es2)
    (hok : (main env).2 ≠ .crashed) :
    (main env).2 = .exited 0 ∧
    (main env).1.trace =
      ((startup env).1.trace ++ batches_calls (some the_buffer) env.mmap.isMapped bs1 ++
        .display_dispatch :: events_calls (some the_buffer) env.mmap.isMapped es1) ++
      (events_calls (some the_buffer) env.mmap.isMapped es2 ++
        [.registry_destroy, .display_disconnect]) ∧
    (events_calls (some the_buffer) env.mmap.isMapped es2).count .surface_commit =
      (configure_serials es2).length ∧
    ((events_calls (some the_buffer) env.mmap.isMapped es2).filter Call.isRender).length =
      (configure_serials es2).length ∧
    (events_calls (some the_buffer) env.mmap.isMapped es2).count .display_dispatch = 0 := by
  have hclose : b.events.any Event.isClose = true := by
    rw [hb]; simp [Event.isClose]
  obtain ⟨-, f2, -, f4⟩ := events_calls_facts (some the_buffer) env.mmap.isMapped es2
  have f5 : (events_calls (some the_buffer) env.mmap.isMapped es2).count
      .display_dispatch = 0 := by
    rw [List.count_eq_zero]
    intro hmem
    rcases mem_events_calls hmem with hbind | ⟨serial, hs⟩
    · simp [Call.isBind] at hbind
    · simp [configure_calls] at hs
  rcases main_cases env hstart with ⟨-, k, -⟩ | ⟨k0, bs3, b3, bs4, hbs, k1, k2, k⟩ | ⟨hc, -⟩
  · have := k b (by rw [hd]; simp)
    rw [hclose] at this
    cases this
  · rw [hd] at hbs
    obtain ⟨e1, e2, -⟩ := first_split_unique (fun b : Batch => b.events.any Event.isClose)
      b b3 bs2 bs4 hclose k2 bs1 bs3 hbs1 k1 hbs
    subst e1 e2
    refine ⟨k0, ?_, f2, f4, f5⟩
    rw [k, batches_calls_append]
    simp [batches_calls, batch_calls, hb, events_calls_append, events_calls, event_calls]
  · exact absurd hc hok

/-- C7 amended, in the environment `env_ok` with three dispatches, the second
holding a close event between two surface-configure events. -/
theorem close_ends_after_batch_witness :
    (startup (env_ok close_in_second)).2 = .running ∧
    (env_ok close_in_second).dispatch =
      [⟨[.xsurface_configure 1], 1⟩] ++
        ⟨[.xsurface_configure 2, .xtoplevel_close, .xsurface_configure 3, .unlistened], 4⟩ ::
          [⟨[.xsurface_configure 4], 1⟩] ∧
    (main (env_ok close_in_second)).2 ≠ .crashed ∧
    (main (env_ok close_in_second)).2 = .exited 0 ∧
    (main (env_ok close_in_second)).1.trace =
      ((startup (env_ok close_in_second)).1.trace ++
        batches_calls (some the_buffer) (env_ok close_in_second).mmap.isMapped
          [⟨[.xsurface_configure 1], 1⟩] ++
        .display_dispatch :: events_calls (some the_buffer)
          (env_ok close_in_second).mmap.isMapped [.xsurface_configure 2]) ++
      (events_calls (some the_buffer) (env_ok close_in_second).mmap.isMapped
          [.xsurface_configure 3, .unlistened] ++
        [.registry_destroy, .display_disconnect]) ∧
    (events_calls (some the_buffer) (env_ok close_in_second).mmap.isMapped
      [.xsurface_configure 3, .unlistened]).count .surface_commit = 1 :=
  have h1 : (startup (env_ok close_in_second)).2 = .running :=
    startup_sound _ rfl (env_ok_globals _) (by simp [env_ok]) (by simp [env_ok])
      (sound_no_faults _ (env_ok_sound _))
  have h3 : (main (env_ok close_in_second)).2 ≠ .crashed := by
    rw [(main_env_ok close_in_second).1]; decide
  have h := close_ends_after_batch (env_ok close_in_second) [⟨[.xsurface_configure 1], 1⟩]
    ⟨[.xsurface_configure 2, .xtoplevel_close, .xsurface_configure 3, .unlistened], 4⟩
    [⟨[.xsurface_configure 4], 1⟩] [.xsurface_configure 2]
    [.xsurface_configure 3, .unlistened] h1 rfl (by decide) rfl h3
  ⟨h1, rfl, h3, h.1, h.2.1, h.2.2.1⟩

/-- C8 as stated fails.  In the environment `env_ok`, with two dispatch calls
that both return `-1` while `quit` is false, the client does not exit: after
each failure it calls `wl_display_dispatch` again, and it ends up waiting in a
third dispatch call. -/
theorem dispatch_failure_is_retried :
    (∀ b ∈ failing_dispatches, b.ret = -1) ∧
    (main (env_ok failing_dispatches)).2 = .blocked ∧
    (main (env_ok failing_dispatches)).2 ≠ .exited 1 ∧
    (main (env_ok failing_dispatches)).1.trace =
      [.display_connect "wayland-1", .display_get_registry, .display_roundtrip,
       .registry_bind 1 "wl_compositor" 4, .registry_bind 2 "wl_shm" 1,
       .registry_bind 3 "xdg_wm_base" 1, .compositor_create_surface,
       .shm_create_pool 3 331776, .shm_pool_create_buffer 0 288 288 1152 0,
       .get_xdg_surface, .get_toplevel, .set_title "Wayland Logo",
       .render_surface true, .surface_commit,
       .display_dispatch, .display_dispatch, .display_dispatch] := by
  have h1 : (main (env_ok failing_dispatches)).2 = .blocked := by
    rw [(main_env_ok failing_dispatches).1]; rfl
  refine ⟨by decide, h1, by rw [h1]; decide, ?_⟩
  rw [(main_env_ok failing_dispatches).2]; rfl

/-- C8 amended.  The value `wl_display_dispatch` returns is not used: a run
of `main` is the same whatever the dispatch calls return.  When a dispatch call
returns `-1` while `quit` is false (and no renderer call faults), the client
calls `wl_display_dispatch` again; it never ends with exit status 1 from the
event loop, but goes on waiting for events or, once a close event arrives,
returns 0. -/
theorem dispatch_failure_not_fatal (env : Env) (bs1 : List Batch) (b : Batch)
    (bs2 : List Batch)
    (hstart : (startup env).2 = .running)
    (hd : env.dispatch = bs1 ++ b :: bs2)
    (_hret : b.ret = -1)
    (hquit : ∀ b1 ∈ bs1 ++ [b], b1.events.any Event.isClose = false)
    (hok : (main env).2 ≠ .crashed) :
    ((main env).2 = .blocked ∨ (main env).2 = .exited 0) ∧
    (∃ tail, (main env).1.trace = (startup env).1.trace ++ tail ∧
      bs1.length + 2 ≤ tail.count .display_dispatch) ∧
    (∀ rets : Batch → Int,
      main { env with dispatch := env.dispatch.map (fun b => { b with ret := rets b }) } =
        main env) := by
  refine ⟨?_, ?_, main_rets env⟩
  · rcases main_cases env hstart with ⟨k, -⟩ | ⟨k, -⟩ | ⟨k, -⟩
    · exact Or.inl k
    · exact Or.inr k
    · exact absurd k hok
  · rcases main_cases env hstart with ⟨-, -, k⟩ | ⟨-, bs3, b3, bs4, hbs, -, k2, k⟩ | ⟨hc, -⟩
    · refine ⟨_, k, ?_⟩
      rw [List.count_append, (batches_calls_facts _ _ _).2.2.2.2, hd]
      simp
    · refine ⟨_, k, ?_⟩
      rw [hd] at hbs
      have hlen := first_split_later (fun b : Batch => b.events.any Event.isClose)
        b b3 bs2 bs4 k2 bs1 bs3 hquit hbs
      rw [List.count_append, (batches_calls_facts _ _ _).2.2.2.2]
      simp
      omega
    · exact absurd hc hok

/-- C8 amended, in the environment `env_ok` with a dispatch that delivers a
configure event, a dispatch that fails, and a dispatch that delivers a close
event. -/
theorem dispatch_failure_not_fatal_witness :
    (startup (env_ok failure_then_close)).2 = .running ∧
    (env_ok failure_then_close).dispatch =
      [⟨[.xsurface_configure 1], 1⟩] ++ ⟨[], -1⟩ :: [⟨[.xtoplevel_close], 1⟩] ∧
    (⟨[], -1⟩ : Batch).ret = -1 ∧
    (∀ b1 ∈ [(⟨[.xsurface_configure 1], 1⟩ : Batch)] ++ [⟨[], -1⟩],
      b1.events.any Event.isClose = false) ∧
    (main (env_ok failure_then_close)).2 ≠ .crashed ∧
    ((main (env_ok failure_then_close)).2 = .blocked ∨
      (main (env_ok failure_then_close)).2 = .exited 0) ∧
    (∃ tail, (main (env_ok failure_then_close)).1.trace =
        (startup (env_ok failure_then_close)).1.trace ++ tail ∧
      3 ≤ tail.count .display_dispatch) :=
  have h1 : (startup (env_ok failure_then_close)).2 = .running :=
    startup_sound _ rfl (env_ok_globals _) (by simp [env_ok]) (by simp [env_ok])
      (sound_no_faults _ (env_ok_sound _))
  have h4 : ∀ b1 ∈ [(⟨[.xsurface_configure 1], 1⟩ : Batch)] ++ [⟨[], -1⟩],
      b1.events.any Event.isClose = false := by decide
  have h5 : (main (env_ok failure_then_close)).2 ≠ .crashed := by
    rw [(main_env_ok failure_then_close).1]; decide
  have h := dispatch_failure_not_fatal (env_ok failure_then_close)
    [⟨[.xsurface_configure 1], 1⟩] ⟨[], -1⟩ [⟨[.xtoplevel_close], 1⟩] h1 rfl rfl h4 h5
  ⟨h1, rfl, rfl, h4, h5, h.1, h.2.1⟩

/-- C9 fails on the code.  In an environment in which `memfd_create` and
`ftruncate` succeed and `mmap` returns `MAP_FAILED`, `main` does not exit: it
emits the `create_buffer` request, goes on to call `render_surface` on the
unmapped pointer, and the first store of the renderer faults. -/
theorem mmap_failure_not_checked :
    env_mmap_fails.mmap = .unmapped ∧
    (main env_mmap_fails).2 = .crashed ∧
    (main env_mmap_fails).1.trace =
      [.display_connect "wayland-1", .display_get_registry, .display_roundtrip,
       .registry_bind 1 "wl_compositor" 4, .registry_bind 2 "wl_shm" 1,
       .registry_bind 3 "xdg_wm_base" 1, .compositor_create_surface,
       .shm_create_pool 3 331776, .shm_pool_create_buffer 0 288 288 1152 0,
       .get_xdg_surface, .get_toplevel, .set_title "Wayland Logo",
       .render_surface false] := by
  refine ⟨rfl, ?_, ?_⟩
  · rfl
  · rfl

/-- C10. For every global event, `registry_global` makes exactly one bind
request, for the name of the event, when the interface is exactly
`wl_compositor`, `wl_shm` or `xdg_wm_base`, and replaces the corresponding
handle only; for every other interface it makes no request and leaves the
state as it is.  Consequently, after any list of registry events handled from
a state whose three handles are null, each handle is non-null exactly when its
interface occurred in a global event of the list. -/
theorem registry_global_allow_list :
    (∀ (name : Nat) (interface : String) (version : Nat) (st : State),
      (interface = "wl_compositor" →
        registry_global name interface version st =
          { st with trace := st.trace ++ [.registry_bind name "wl_compositor" 4],
                    compositor := some ⟨name, "wl_compositor", 4⟩ }) ∧
      (interface = "wl_shm" →
        registry_global name interface version st =
          { st with trace := st.trace ++ [.registry_bind name "wl_shm" 1],
                    shm := some ⟨name, "wl_shm", 1⟩ }) ∧
      (interface = "xdg_wm_base" →
        registry_global name interface version st =
          { st with trace := st.trace ++ [.registry_bind name "xdg_wm_base" 1],
                    shell := some ⟨name, "xdg_wm_base", 1⟩ }) ∧
      (interface ≠ "wl_compositor" → interface ≠ "wl_shm" → interface ≠ "xdg_wm_base" →
        registry_global name interface version st = st)) ∧
    (∀ (es : List RegistryEvent) (st : State),
      st.compositor = none → st.shm = none → st.shell = none →
      ((es.foldl (fun st e => registry_listener e st) st).compositor.isSome = true ↔
        advertised "wl_compositor" es) ∧
      ((es.foldl (fun st e => registry_listener e st) st).shm.isSome = true ↔
        advertised "wl_shm" es) ∧
      ((es.foldl (fun st e => registry_listener e st) st).shell.isSome = true ↔
        advertised "xdg_wm_base" es)) := by
  refine ⟨?_, ?_⟩
  · intro name interface version st
    refine ⟨?_, ?_, ?_, ?_⟩
    · rintro rfl; simp [registry_global, emit]
    · rintro rfl; simp [registry_global, emit]
    · rintro rfl; simp [registry_global, emit]
    · intro h1 h2 h3; simp [registry_global, h1, h2, h3]
  · intro es st h1 h2 h3
    refine ⟨?_, ?_, ?_⟩
    · rw [registry_fold_handle "wl_compositor" State.compositor
        (fun n i v st => (registry_global_handles n i v st).1) es st, h1]
      simp
    · rw [registry_fold_handle "wl_shm" State.shm
        (fun n i v st => (registry_global_handles n i v st).2.1) es st, h2]
      simp
    · rw [registry_fold_handle "xdg_wm_base" State.shell
        (fun n i v st => (registry_global_handles n i v st).2.2) es st, h3]
      simp

/-- C10, on a list of registry events that announces a compositor and two
shared-memory globals but no `xdg_wm_base`, handled from the initial state. -/
theorem registry_global_allow_list_witness :
    State.init.compositor = none ∧ State.init.shm = none ∧ State.init.shell = none ∧
    ((some_globals.foldl (fun st e => registry_listener e st) State.init).compositor.isSome
        = true ↔ advertised "wl_compositor" some_globals) ∧
    ((some_globals.foldl (fun st e => registry_listener e st) State.init).shm.isSome
        = true ↔ advertised "wl_shm" some_globals) ∧
    ((some_globals.foldl (fun st e => registry_listener e st) State.init).shell.isSome
        = true ↔ advertised "xdg_wm_base" some_globals) ∧
    (some_globals.foldl (fun st e => registry_listener e st) State.init).trace =
      [.registry_bind 1 "wl_compositor" 4, .registry_bind 2 "wl_shm" 1,
       .registry_bind 12 "wl_shm" 1] ∧
    (some_globals.foldl (fun st e => registry_listener e st) State.init).shell = none :=
  have h := registry_global_allow_list.2 some_globals State.init rfl rfl rfl
  ⟨rfl, rfl, rfl, h.1, h.2.1, h.2.2, by decide, by decide⟩

end WaylandLogo
